import Mathlib

/-!
# stm32flash for the VEX cortex: a shallow embedding of `main.c`

The program talks to three external collaborators whose code is not part of
`main.c`: the serial transport (`serial_*`), the bootloader protocol engine
(`stm32_*`) and the image parser (`parser->*`).  Each external call is
modelled as

* an `Event` appended to a chronological trace, carrying the arguments of the
  call and, for a call that reads, the bytes it obtained (`none` when the call
  failed), and
* a reply taken from an `Env`, which may depend on the whole trace so far
  and on the arguments of the call.

Since the trace grows with every call, an `Env` can realise every finite
sequence of replies: quantifying over `Env` quantifies over every behaviour of
the device, the line and the parser.

Machine integers are natural numbers or integers; `uint32_t` arithmetic is
reduced modulo `2^32` where the C code can wrap.  Bytes are natural numbers.
A buffer filled by an external call is a function from index to byte when the
caller fixes its length (`stm32_read_memory`, `serial_read`) and a list when
the callee fixes it (`parser->read`, which stores the length through `&len`).
-/

namespace Stm32flash

/-! ## Machine arithmetic -/

/-- The modulus of `uint32_t` and `unsigned int`. -/
def U32 : Nat := 4294967296

/-- Subtraction of two `uint32_t` values. -/
def sub32 (a b : Nat) : Nat := (a + U32 - b) % U32

/-- Addition of two `uint32_t` values. -/
def add32 (a b : Nat) : Nat := (a + b) % U32

/-! ## Data model -/

/-- Values of `serial_baud_t` that `main.c` names; `serial.h` holds the full
enumeration, the remaining rates are `SERIAL_BAUD_OTHER`. -/
inductive serial_baud_t
  | SERIAL_BAUD_1200
  | SERIAL_BAUD_9600
  | SERIAL_BAUD_115200
  | SERIAL_BAUD_OTHER (code : Nat)
  | SERIAL_BAUD_INVALID
  deriving DecidableEq, Repr

/-- Parity settings named in `main.c`. -/
inductive serial_parity_t
  | SERIAL_PARITY_NONE
  | SERIAL_PARITY_EVEN
  deriving DecidableEq, Repr

/-- Values of `parser_err_t` that `main.c` distinguishes; every other error
code of `parser.h` is `PARSER_ERR_OTHER`. -/
inductive parser_err_t
  | PARSER_ERR_OK
  | PARSER_ERR_SYSTEM
  | PARSER_ERR_INVALID_FILE
  | PARSER_ERR_OTHER (code : Nat)
  deriving DecidableEq, Repr

/-- The two parser tables `PARSER_HEX` and `PARSER_BINARY`. -/
inductive parser_kind
  | PARSER_HEX
  | PARSER_BINARY
  deriving DecidableEq, Repr

/-- The flash geometry of `stm->dev`; the other fields of the descriptor are
only printed by `main`. -/
structure stm32_dev_t where
  fl_start : Nat
  fl_end : Nat
  deriving DecidableEq, Repr

/-- The session object returned by `stm32_init`. -/
structure stm32_t where
  dev : stm32_dev_t
  deriving DecidableEq, Repr

/-- Diagnostic texts written by `printf`, `fprintf` and `perror`. -/
inductive Msg
  | banner
  | file_too_large
  | write_failed (addr : Nat)
  | read_failed (addr : Nat)
  | read_failed_protected (addr : Nat)
  | verify_failed (addr expected found : Nat)
  | verify_ok
  | newline
  | done
  | parser_error (e : parser_err_t)
  | parser_init_failed
  | parser_selected
  | perror
  | device_info
  | no_vex_system
  | status_request
  | status_reply (rep : List Nat)
  | bootloader_start
  | bootloader_start_rts
  | reset_slave
  | write_unprotecting
  | starting_execution (addr : Nat)
  | failed
  | invalid_baud
  | invalid_rw
  | invalid_pages
  | invalid_unprotect
  | invalid_parameter
  | no_device
  | invalid_verify
  | help
  deriving DecidableEq, Repr

/-- One external call, with its arguments and the bytes it read. -/
inductive Event
  | serial_open (device : String)
  | serial_setup (baud : serial_baud_t) (bits : Nat) (parity : serial_parity_t) (stop : Nat)
  | serial_write (data : List Nat)
  | serial_read (len : Nat) (reply : Option (List Nat))
  | serial_flush
  | serial_set_rts (level : Nat)
  | serial_close
  | stm32_init (init_flag : Int)
  | stm32_read_memory (addr len : Nat) (reply : Option (List Nat))
  | stm32_write_memory (addr : Nat) (data : List Nat)
  | stm32_erase_memory (npages : Int)
  | stm32_wunprot_memory
  | stm32_go (addr : Nat)
  | stm32_close
  | parser_init (k : parser_kind)
  | parser_open (k : parser_kind) (filename : String) (write : Bool)
  | parser_read (k : parser_kind) (len : Nat) (reply : Option (List Nat))
  | parser_write (k : parser_kind) (data : List Nat)
  | parser_size (k : parser_kind)
  | parser_close (k : parser_kind)
  | usleep (us : Nat)
  | print (m : Msg)
  | show_progress (done size : Nat)
  | transfer_timer (action size : Nat)
  deriving DecidableEq, Repr

/-- The chronological log of external calls. -/
abbrev Trace := List Event

/-- The replies of the external collaborators.  Every reply may depend on the
trace before the call.  `true` stands for success (`SERIAL_ERR_OK`, a non-zero
`stm32_*` result, a non-null pointer). -/
structure Env where
  serial_open : Trace → String → Bool
  serial_setup : Trace → serial_baud_t → Nat → serial_parity_t → Nat → Bool
  serial_write : Trace → List Nat → Bool
  serial_read : Trace → Nat → Option (Nat → Nat)
  stm32_init : Trace → Int → Option stm32_t
  stm32_read_memory : Trace → Nat → Nat → Option (Nat → Nat)
  stm32_write_memory : Trace → Nat → List Nat → Bool
  stm32_go : Trace → Nat → Bool
  parser_init : Trace → parser_kind → Bool
  parser_open : Trace → parser_kind → String → Bool → parser_err_t
  parser_read : Trace → parser_kind → Nat → Option (List Nat)
  parser_write : Trace → parser_kind → List Nat → parser_err_t
  parser_size : Trace → parser_kind → Nat

/-- The global variables of `main.c` together with the trace. -/
structure State where
  trace : Trace
  serial : Bool
  stm : Option stm32_t
  p_st : Bool
  parser : Option parser_kind
  device : Option String
  baudRate : serial_baud_t
  rd : Bool
  wr : Bool
  wu : Bool
  npages : Int
  verify : Bool
  retry : Int
  exec_flag : Bool
  execute : Nat
  init_flag : Int
  force_binary : Bool
  reset_flag : Bool
  filename : String
  vex_user_program : Int
  quietmode : Bool

/-- The initial values of the globals (lines 87-110), with an empty trace. -/
def State.initial : State :=
  { trace := [], serial := false, stm := none, p_st := false, parser := none,
    device := none, baudRate := serial_baud_t.SERIAL_BAUD_115200,
    rd := false, wr := false, wu := false, npages := 255, verify := false,
    retry := 10, exec_flag := false, execute := 0, init_flag := 1,
    force_binary := false, reset_flag := true, filename := "",
    vex_user_program := 1, quietmode := false }

/-- Appends events to the trace of a state. -/
def State.log (s : State) (es : List Event) : State := { s with trace := s.trace ++ es }

/-- How a call of a C function ends: it returns a value, the process is
aborted by a failed `assert`, a null pointer is dereferenced, or the fuel of
the model is exhausted before the call returns. -/
inductive Outcome
  | returned (v : Int)
  | aborted
  | crashed
  | out_of_fuel
  deriving DecidableEq, Repr

/-- The first `len` bytes of a buffer. -/
def bytes (buf : Nat → Nat) (len : Nat) : List Nat := (List.range len).map buf

/-- What a read that filled `len` bytes of a buffer, or failed, leaves in the trace. -/
def read_reply (reply : Option (Nat → Nat)) (len : Nat) : Option (List Nat) :=
  reply.map fun buf => bytes buf len

/-! ## `write_flash` (lines 705-801) -/

/-- The compare loop `for (r = 0; r < len; ++r)` of lines 763-776, started at
index `r` with `n` iterations left.  `Except.error r` is the `return(-1)` of
line 770 taken at index `r`; `Except.ok failed` is the value of `failed` when
the loop ends. -/
def compare_loop (retry : Int) (buffer : List Nat) (compare : Nat → Nat) :
    Nat → Nat → Int → Except Nat Int
  | 0, _, failed => Except.ok failed
  | n + 1, r, failed =>
    if buffer.getD r 0 ≠ compare r ∧ failed = retry then Except.error r
    else
      -- the `++failed` of line 772 is overwritten by the `failed = 0` of line 775
      compare_loop retry buffer compare n (r + 1) 0

/-- The `do ... while (failed > 0)` loop of lines 745-778 for one chunk.
`none` means the loop was left normally, `some o` that `write_flash` ends
with outcome `o`. -/
def write_chunk (env : Env) (verify : Bool) (retry : Int) (addr : Nat)
    (buffer : List Nat) (len : Nat) : Nat → Int → Trace → Option Outcome × Trace
  | 0, _, t => (some Outcome.out_of_fuel, t)
  | fuel + 1, failed, t =>
    let t1 := t ++ [Event.stm32_write_memory addr buffer]
    if env.stm32_write_memory t addr buffer = false then
      (some (Outcome.returned (-1)), t1 ++ [Event.print (Msg.write_failed addr)])
    else if verify then
      let t2 := t1 ++ [Event.stm32_read_memory addr len
        (read_reply (env.stm32_read_memory t1 addr len) len)]
      match env.stm32_read_memory t1 addr len with
      | none => (some (Outcome.returned (-1)), t2 ++ [Event.print (Msg.read_failed addr)])
      | some compare =>
        match compare_loop retry buffer compare len 0 failed with
        | Except.error r =>
          (some (Outcome.returned (-1)),
            t2 ++ [Event.print (Msg.verify_failed (add32 addr r) (buffer.getD r 0) (compare r))])
        | Except.ok failed1 =>
          if failed1 > 0 then write_chunk env verify retry addr buffer len fuel failed1 t2
          else (none, t2)
    else if failed > 0 then write_chunk env verify retry addr buffer len fuel failed t1
    else (none, t1)

/-- Lines 736-738: the length requested for the chunk at `addr`, the least of
the buffer size, the rest of the flash and the rest of the image. -/
def chunk_len (dev : stm32_dev_t) (size addr offset : Nat) : Nat :=
  let left := sub32 dev.fl_end addr
  let len := if 256 > left then left else 256
  if len > size - offset then size - offset else len

/-- The `while (addr < fl_end && offset < size)` loop of lines 734-788 and the
epilogue of lines 790-797. -/
def write_loop (env : Env) (k : parser_kind) (dev : stm32_dev_t) (verify : Bool)
    (retry : Int) (quietmode : Bool) (size : Nat) :
    Nat → Nat → Nat → Trace → Outcome × Trace
  | 0, _, _, t => (Outcome.out_of_fuel, t)
  | fuel + 1, addr, offset, t =>
    if addr < dev.fl_end ∧ offset < size then
      let len1 := chunk_len dev size addr offset
      let t1 := t ++ [Event.parser_read k len1 (env.parser_read t k len1)]
      match env.parser_read t k len1 with
      | none => (Outcome.returned (-1), t1)
      | some buffer =>
        let len := buffer.length
        match write_chunk env verify retry addr buffer len (fuel + 1) 0 t1 with
        | (some o, t2) => (o, t2)
        | (none, t2) =>
          let addr1 := add32 addr len
          let offset1 := offset + len
          let t3 := if quietmode then t2 else t2 ++ [Event.show_progress offset1 size]
          write_loop env k dev verify retry quietmode size fuel addr1 offset1 t3
    else
      let t1 := t ++ [Event.transfer_timer 1 size]
      let t2 := if !quietmode && verify then t1 ++ [Event.print Msg.verify_ok] else t1
      (Outcome.returned 1, t2)

/-- The function `write_flash`.  `fuel` bounds the iterations of each loop. -/
def write_flash (env : Env) (fuel : Nat) (s : State) : Outcome × State :=
  if s.wr then
    let t0 := s.trace ++ [Event.print Msg.newline]
    match s.parser, s.stm with
    | some k, some stm =>
      let size := env.parser_size t0 k % U32
      let t1 := t0 ++ [Event.parser_size k]
      if size > sub32 stm.dev.fl_end stm.dev.fl_start then
        (Outcome.returned (-1), { s with trace := t1 ++ [Event.print Msg.file_too_large] })
      else
        let t2 := t1 ++ [Event.stm32_erase_memory s.npages]
        let t3 := t2 ++ [Event.show_progress 0 size, Event.transfer_timer 0 0]
        let r := write_loop env k stm.dev s.verify s.retry s.quietmode size fuel
          stm.dev.fl_start 0 t3
        (r.1, { s with trace := r.2 })
    | _, _ => (Outcome.crashed, { s with trace := t0 })
  else (Outcome.returned 0, s)

/-! ## `read_flash` (lines 615-671) -/

/-- Lines 642-643: the length of the chunk read at `addr`, the lesser of the
buffer size and the rest of the flash. -/
def read_len (dev : stm32_dev_t) (addr : Nat) : Nat :=
  let left := sub32 dev.fl_end addr
  if 256 > left then left else 256

/-- The `while (addr < fl_end)` loop of lines 640-659 and the epilogue of
lines 661-667.  A failed `assert` of line 650 aborts the process. -/
def read_loop (env : Env) (k : parser_kind) (dev : stm32_dev_t) (quietmode : Bool) :
    Nat → Nat → Trace → Outcome × Trace
  | 0, _, t => (Outcome.out_of_fuel, t)
  | fuel + 1, addr, t =>
    if addr < dev.fl_end then
      let len := read_len dev addr
      let t1 := t ++ [Event.stm32_read_memory addr len
        (read_reply (env.stm32_read_memory t addr len) len)]
      match env.stm32_read_memory t addr len with
      | none => (Outcome.returned (-1), t1 ++ [Event.print (Msg.read_failed_protected addr)])
      | some buffer =>
        let t2 := t1 ++ [Event.parser_write k (bytes buffer len)]
        if env.parser_write t1 k (bytes buffer len) ≠ parser_err_t.PARSER_ERR_OK then
          (Outcome.aborted, t2)
        else
          let addr1 := add32 addr len
          let t3 := if quietmode then t2
            else t2 ++ [Event.show_progress (sub32 addr1 dev.fl_start)
              (sub32 dev.fl_end dev.fl_start)]
          read_loop env k dev quietmode fuel addr1 t3
    else
      let t1 := if quietmode then t else t ++ [Event.print Msg.done]
      (Outcome.returned 1, t1 ++ [Event.transfer_timer 1 (sub32 dev.fl_end dev.fl_start)])

/-- The function `read_flash`.  `fuel` bounds the iterations of the loop. -/
def read_flash (env : Env) (fuel : Nat) (s : State) : Outcome × State :=
  if s.rd then
    let t0 := s.trace ++ [Event.print Msg.newline]
    match s.parser, s.stm with
    | some k, some stm =>
      let perr := env.parser_open t0 k s.filename true
      let t1 := t0 ++ [Event.parser_open k s.filename true]
      if perr ≠ parser_err_t.PARSER_ERR_OK then
        let t2 := t1 ++ [Event.print (Msg.parser_error perr)]
        let t3 := if perr = parser_err_t.PARSER_ERR_SYSTEM then t2 ++ [Event.print Msg.perror]
          else t2
        (Outcome.returned (-1), { s with trace := t3 })
      else
        let t2 := t1 ++ [Event.show_progress 0 (sub32 stm.dev.fl_end stm.dev.fl_start),
          Event.transfer_timer 0 0]
        let r := read_loop env k stm.dev s.quietmode fuel stm.dev.fl_start t2
        (r.1, { s with trace := r.2 })
    | _, _ => (Outcome.crashed, { s with trace := t0 })
  else (Outcome.returned 0, s)

/-! ## `cleanup` (lines 808-821) -/

/-- The function `cleanup`.  It closes what the globals point to and leaves the
globals themselves unchanged.  `none` is a call through a null `parser`. -/
def cleanup (s : State) : Option State :=
  let s1 := s.log [Event.usleep 20000]
  let s2 : Option State :=
    if s1.p_st then
      match s1.parser with
      | some k => some (s1.log [Event.parser_close k])
      | none => none
    else some s1
  match s2 with
  | none => none
  | some s3 =>
    let s4 := if s3.stm.isSome then s3.log [Event.stm32_close] else s3
    some (if s4.serial then s4.log [Event.serial_close] else s4)

/-- The statement pair `cleanup(); return(v);`. -/
def cleanup_return (s : State) (v : Int) : Outcome × State :=
  match cleanup s with
  | some s1 => (Outcome.returned v, s1)
  | none => (Outcome.crashed, s)

/-! ## The VEX handshake (lines 268-549) -/

/-- The function `vex_sys_status_cmd` (lines 383-451).  The display of lines
408-440 is one `status_reply` message carrying the 14 reply bytes. -/
def vex_sys_status_cmd (env : Env) (s : State) : Int × State :=
  if s.serial then
    let s1 := if s.quietmode then s else s.log [Event.print Msg.status_request]
    let s2 := s1.log [Event.serial_flush]
    let s3 := s2.log [Event.serial_write [0xC9, 0x36, 0xB8, 0x47, 0x21]]
    if env.serial_write s2.trace [0xC9, 0x36, 0xB8, 0x47, 0x21] then
      let s4 := s3.log [Event.serial_read 14 (read_reply (env.serial_read s3.trace 14) 14)]
      match env.serial_read s3.trace 14 with
      | some rep =>
        if s.quietmode then (1, s4)
        else if rep 0 ≠ 0xAA ∨ rep 1 ≠ 0x55 ∨ rep 2 ≠ 0x21 ∨ rep 3 ≠ 0x0A then (0, s4)
        else (1, s4.log [Event.print (Msg.status_reply (bytes rep 14))])
      | none => (0, s4)
    else (0, s3)
  else (1, s)

/-- The function `vex_enter_user_program_cmd` (lines 457-477). -/
def vex_enter_user_program_cmd (s : State) : Int × State :=
  if s.serial then
    let s1 := if s.quietmode then s else s.log [Event.print Msg.bootloader_start]
    (1, s1.log [Event.serial_write [0xC9, 0x36, 0xB8, 0x47, 0x25],
      Event.serial_write [0xC9, 0x36, 0xB8, 0x47, 0x25],
      Event.serial_write [0xC9, 0x36, 0xB8, 0x47, 0x25],
      Event.serial_write [0xC9, 0x36, 0xB8, 0x47, 0x25],
      Event.serial_write [0xC9, 0x36, 0xB8, 0x47, 0x25],
      Event.usleep 250000])
  else (1, s)

/-- The function `vex_reset_slave_cmd` (lines 483-503). -/
def vex_reset_slave_cmd (s : State) : Int × State :=
  if s.serial then
    let s1 := if s.quietmode then s else s.log [Event.print Msg.reset_slave]
    (1, s1.log [Event.serial_write [0xC9, 0x36, 0xB8, 0x47, 0x24],
      Event.serial_write [0xC9, 0x36, 0xB8, 0x47, 0x24],
      Event.serial_write [0xC9, 0x36, 0xB8, 0x47, 0x24],
      Event.serial_write [0xC9, 0x36, 0xB8, 0x47, 0x24],
      Event.serial_write [0xC9, 0x36, 0xB8, 0x47, 0x24],
      Event.usleep 250000])
  else (1, s)

/-- The function `vex_enter_user_program_rts` (lines 509-549). -/
def vex_enter_user_program_rts (env : Env) (s : State) : Int × State :=
  if s.serial then
    let s1 := s.log [Event.serial_setup serial_baud_t.SERIAL_BAUD_9600 8
      serial_parity_t.SERIAL_PARITY_NONE 1]
    if env.serial_setup s.trace serial_baud_t.SERIAL_BAUD_9600 8
        serial_parity_t.SERIAL_PARITY_NONE 1 = false then
      (0, s1.log [Event.print Msg.perror])
    else
      let s2 := if s.quietmode then s1 else s1.log [Event.print Msg.bootloader_start_rts]
      (1, s2.log [Event.serial_write [0x00],
        Event.serial_set_rts 1, Event.usleep 5000,
        Event.serial_set_rts 0, Event.usleep 15000,
        Event.serial_set_rts 1, Event.usleep 10000,
        Event.serial_write [0xF0], Event.usleep 20000,
        Event.serial_set_rts 0, Event.usleep 250000])
  else (1, s)

/-- The probe loop `for (retry = 0; retry < 5; retry++)` of lines 292-318 with
`n` iterations left, followed by the `return(init_flag)` of line 322. -/
def detect_loop (env : Env) : Nat → State → Outcome × State
  | 0, s => (Outcome.returned s.init_flag, s)
  | n + 1, s =>
    let s1 := s.log [Event.serial_write [0x7F]]
    let s2 := s1.log [Event.serial_read 1 (read_reply (env.serial_read s1.trace 1) 1)]
    match env.serial_read s1.trace 1 with
    | some rep =>
      if rep 0 = 0x79 then
        let s3 := { s2 with init_flag := 0 }
        (Outcome.returned s3.init_flag, s3)
      else if rep 0 = 0x1F then
        let s3 := s2.log [Event.serial_write [0x00, 0xFF]]
        let s4 := s3.log [Event.serial_read 15 (read_reply (env.serial_read s3.trace 15) 15)]
        let s5 :=
          match env.serial_read s3.trace 15 with
          | some rep2 => if rep2 0 = 0x79 then { s4 with init_flag := 0 } else s4
          | none => s4
        (Outcome.returned s5.init_flag, s5)
      else detect_loop env n s2
    | none => detect_loop env n s2

/-- The function `vex_detect_mode` (lines 268-323). -/
def vex_detect_mode (env : Env) (s : State) : Outcome × State :=
  let s1 := s.log [Event.usleep 100000]
  if s1.serial then
    let s2 := s1.log [Event.serial_setup s1.baudRate 8 serial_parity_t.SERIAL_PARITY_EVEN 1]
    if env.serial_setup s1.trace s1.baudRate 8 serial_parity_t.SERIAL_PARITY_EVEN 1 = false then
      cleanup_return (s2.log [Event.print Msg.perror]) (-1)
    else detect_loop env 5 (s2.log [Event.usleep 100000])
  else (Outcome.returned s1.init_flag, s1)

/-- Lines 368-373 of `vex_initialize`: the configured entry strategy. -/
def vex_enter_strategy (env : Env) (s : State) : State :=
  if s.vex_user_program = 2 then (vex_enter_user_program_rts env s).2
  else if s.vex_user_program ≠ 0 then (vex_enter_user_program_cmd s).2
  else s

/-- The function `vex_initialize` (lines 329-377). -/
def vex_initialize (env : Env) (s : State) : Outcome × State :=
  let s1 := s.log [Event.usleep 100000]
  if s1.serial then
    let s2 := s1.log [Event.serial_setup s1.baudRate 8 serial_parity_t.SERIAL_PARITY_NONE 1]
    if env.serial_setup s1.trace s1.baudRate 8 serial_parity_t.SERIAL_PARITY_NONE 1 = false then
      cleanup_return (s2.log [Event.print Msg.perror]) (-1)
    else
      let s3 := s2.log [Event.usleep 100000, Event.serial_write [0x00, 0x00, 0x00, 0x00],
        Event.usleep 100000]
      let first := vex_sys_status_cmd env s3
      let second :=
        if first.1 = 0 then vex_sys_status_cmd env (first.2.log [Event.usleep 100000])
        else first
      if first.1 = 0 ∧ second.1 = 0 then
        (Outcome.returned (-1), second.2.log [Event.print Msg.no_vex_system])
      else (Outcome.returned 1, vex_enter_strategy env second.2)
  else (Outcome.returned 0, s1)

/-! ## `write_unprotect_flash` (lines 677-697) -/

/-- The function `write_unprotect_flash`. -/
def write_unprotect_flash (s : State) : Int × State :=
  if s.wu then
    let s1 := if s.quietmode then s else s.log [Event.print Msg.write_unprotecting]
    let s2 := { s1 with reset_flag := false }
    let s3 := s2.log [Event.stm32_wunprot_memory]
    (1, if s.quietmode then s3 else s3.log [Event.print Msg.done])
  else (0, s)

/-! ## Parser selection (lines 827-896) -/

/-- The block "now try binary" of lines 857-866 with the error exit of lines
869-878 and the message of line 881. -/
def open_binary (env : Env) (s : State) : parser_err_t × State :=
  let s1 := { s with parser := some parser_kind.PARSER_BINARY }
  let ok := env.parser_init s1.trace parser_kind.PARSER_BINARY
  let s2 := { s1.log [Event.parser_init parser_kind.PARSER_BINARY] with p_st := ok }
  if ok = false then
    (parser_err_t.PARSER_ERR_SYSTEM, s2.log [Event.print Msg.parser_init_failed])
  else
    let perr := env.parser_open s2.trace parser_kind.PARSER_BINARY s2.filename false
    let s3 := s2.log [Event.parser_open parser_kind.PARSER_BINARY s2.filename false]
    if perr ≠ parser_err_t.PARSER_ERR_OK then
      let s4 := s3.log [Event.print (Msg.parser_error perr)]
      (perr, if perr = parser_err_t.PARSER_ERR_SYSTEM then s4.log [Event.print Msg.perror] else s4)
    else (parser_err_t.PARSER_ERR_OK, s3.log [Event.print Msg.parser_selected])

/-- The function that `main.c` calls `open_parser`. -/
def open_parser_fn (env : Env) (s : State) : parser_err_t × State :=
  if s.wr then
    if s.force_binary then open_binary env s
    else
      let s1 := { s with parser := some parser_kind.PARSER_HEX }
      let ok := env.parser_init s1.trace parser_kind.PARSER_HEX
      let s2 := { s1.log [Event.parser_init parser_kind.PARSER_HEX] with p_st := ok }
      if ok = false then
        (parser_err_t.PARSER_ERR_SYSTEM, s2.log [Event.print Msg.parser_init_failed])
      else
        let perr := env.parser_open s2.trace parser_kind.PARSER_HEX s2.filename false
        let s3 := s2.log [Event.parser_open parser_kind.PARSER_HEX s2.filename false]
        if perr ≠ parser_err_t.PARSER_ERR_OK then
          if perr = parser_err_t.PARSER_ERR_INVALID_FILE then
            open_binary env { s3.log [Event.parser_close parser_kind.PARSER_HEX] with p_st := false }
          else
            let s4 := s3.log [Event.print (Msg.parser_error perr)]
            (perr, if perr = parser_err_t.PARSER_ERR_SYSTEM then s4.log [Event.print Msg.perror]
              else s4)
        else (parser_err_t.PARSER_ERR_OK, s3.log [Event.print Msg.parser_selected])
  else if s.rd then
    let s1 := { s with parser := some parser_kind.PARSER_BINARY }
    let ok := env.parser_init s1.trace parser_kind.PARSER_BINARY
    let s2 := { s1.log [Event.parser_init parser_kind.PARSER_BINARY] with p_st := ok }
    if ok = false then
      (parser_err_t.PARSER_ERR_SYSTEM, s2.log [Event.print Msg.parser_init_failed])
    else (parser_err_t.PARSER_ERR_OK, s2)
  else (parser_err_t.PARSER_ERR_OK, s)

/-! ## Command line (lines 903-1014) -/

/-- One result of `getopt`: the option character, its argument text and the
value `strtoul(optarg, NULL, 0)` of that text, an `unsigned long`. -/
structure getopt_t where
  c : Char
  optarg : String
  value : Nat
  deriving DecidableEq, Repr

/-- Conversion of an `unsigned long` to `int`. -/
def to_int (v : Nat) : Int :=
  if v % U32 < 2147483648 then ((v % U32 : Nat) : Int) else ((v % U32 : Nat) : Int) - 4294967296

/-- One pass through the `switch` of lines 906-989.  `some v` is `return v`. -/
def option_case (serial_get_baud : Nat → serial_baud_t) (o : getopt_t) (s : State) :
    Option Int × State :=
  if o.c = 'X' then
    (none, if s.vex_user_program = 0 then { s with vex_user_program := 1 } else s)
  else if o.c = '0' then (none, { s with vex_user_program := 0 })
  else if o.c = '1' then (none, { s with vex_user_program := 1 })
  else if o.c = '2' then (none, { s with vex_user_program := 2 })
  else if o.c = 'q' then (none, { s with quietmode := true })
  else if o.c = 'b' then
    if serial_get_baud o.value = serial_baud_t.SERIAL_BAUD_INVALID then
      (some 1, { s.log [Event.print Msg.invalid_baud] with
        baudRate := serial_baud_t.SERIAL_BAUD_INVALID })
    else (none, { s with baudRate := serial_get_baud o.value })
  else if o.c = 'r' ∨ o.c = 'w' then
    let s1 := { s with rd := s.rd || decide (o.c = 'r'), wr := s.wr || decide (o.c = 'w') }
    if s1.rd ∧ s1.wr then (some 1, s1.log [Event.print Msg.invalid_rw])
    else (none, { s1 with filename := o.optarg })
  else if o.c = 'e' then
    let s1 := { s with npages := to_int o.value }
    if s1.npages > 0xFF ∨ s1.npages < 0 then (some 1, s1.log [Event.print Msg.invalid_pages])
    else (none, s1)
  else if o.c = 'u' then
    let s1 := { s with wu := true }
    if s1.rd ∨ s1.wr then (some 1, s1.log [Event.print Msg.invalid_unprotect])
    else (none, s1)
  else if o.c = 'v' then (none, { s with verify := true })
  else if o.c = 'n' then (none, { s with retry := to_int o.value })
  else if o.c = 'g' then (none, { s with exec_flag := true, execute := o.value % U32 })
  else if o.c = 'G' then (none, { s with exec_flag := true, execute := 0 })
  else if o.c = 'f' then (none, { s with force_binary := true })
  else if o.c = 'c' then (none, { s with init_flag := 0 })
  else if o.c = 'h' then (some 1, s.log [Event.print Msg.help])
  else (none, s)

/-- The `while ((c = getopt(...)) != -1)` loop of lines 905-990 over the
options that `getopt` delivers. -/
def option_loop (serial_get_baud : Nat → serial_baud_t) :
    List getopt_t → State → Option Int × State
  | [], s => (none, s)
  | o :: rest, s =>
    match option_case serial_get_baud o s with
    | (some v, s1) => (some v, s1)
    | (none, s1) => option_loop serial_get_baud rest s1

/-- The loop of lines 992-999 over the arguments `argv[optind..argc)`. -/
def device_loop : List String → State → Option Int × State
  | [], s => (none, s)
  | a :: rest, s =>
    if s.device.isSome then
      (some 1, s.log [Event.print Msg.invalid_parameter, Event.print Msg.help])
    else device_loop rest { s with device := some a }

/-- The function `parse_options`, on the options and the remaining arguments
that `getopt` extracts from `argv`. -/
def parse_options (serial_get_baud : Nat → serial_baud_t) (opts : List getopt_t)
    (args : List String) (s : State) : Int × State :=
  match option_loop serial_get_baud opts s with
  | (some v, s1) => (v, s1)
  | (none, s1) =>
    match device_loop args s1 with
    | (some v, s2) => (v, s2)
    | (none, s2) =>
      if s2.device.isNone then (1, s2.log [Event.print Msg.no_device, Event.print Msg.help])
      else if !s2.wr && s2.verify then
        (1, s2.log [Event.print Msg.invalid_verify, Event.print Msg.help])
      else (0, s2)

/-! ## `main` (lines 133-260) -/

/-- Lines 233-253 of `main`: the optional `stm32_go`. -/
def main_execute (env : Env) (s : State) : State :=
  match s.stm with
  | some stm =>
    if s.exec_flag then
      let s2 := if s.execute = 0 then { s with execute := stm.dev.fl_start } else s
      let s3 := if s2.quietmode then s2
        else s2.log [Event.print (Msg.starting_execution s2.execute)]
      let s4 := s3.log [Event.stm32_go s3.execute]
      if env.stm32_go s3.trace s3.execute then
        let s5 := { s4 with reset_flag := false }
        if s5.quietmode then s5 else s5.log [Event.print Msg.done]
      else if s4.quietmode then s4 else s4.log [Event.print Msg.failed]
    else s
  | none => s

/-- Lines 233-259 of `main`: the optional `stm32_go`, `cleanup` and the final
`return ret` with `ret = 1`. -/
def main_finish (env : Env) (s : State) : Outcome × State :=
  match cleanup (main_execute env s) with
  | some s2 => (Outcome.returned 1, s2.log [Event.print Msg.newline])
  | none => (Outcome.crashed, main_execute env s)

/-- Lines 216-231 of `main`, the selected operation, followed by `main_finish`. -/
def main_operation (env : Env) (fuel : Nat) (s : State) : Outcome × State :=
  if s.rd then
    match read_flash env fuel s with
    | (Outcome.returned v, s1) => if v < 0 then cleanup_return s1 (-1) else main_finish env s1
    | (o, s1) => (o, s1)
  else if s.wu then main_finish env (write_unprotect_flash s).2
  else if s.wr then
    match write_flash env fuel s with
    | (Outcome.returned v, s1) => if v < 0 then cleanup_return s1 (-1) else main_finish env s1
    | (o, s1) => (o, s1)
  else main_finish env s

/-- Lines 197-214 of `main`: `stm32_init` and the device report, followed by
`main_operation`. -/
def main_init (env : Env) (fuel : Nat) (s : State) : Outcome × State :=
  let s1 := { s.log [Event.stm32_init s.init_flag] with
    stm := env.stm32_init s.trace s.init_flag }
  if s1.stm.isNone then cleanup_return s1 (-1)
  else main_operation env fuel (if s1.quietmode then s1 else s1.log [Event.print Msg.device_info])

/-- Lines 178-195 of `main`: the bootloader line settings and the RTS line,
followed by `main_init`. -/
def main_connect (env : Env) (fuel : Nat) (s : State) : Outcome × State :=
  let s1 := s.log [Event.serial_setup s.baudRate 8 serial_parity_t.SERIAL_PARITY_EVEN 1]
  if env.serial_setup s.trace s.baudRate 8 serial_parity_t.SERIAL_PARITY_EVEN 1 = false then
    cleanup_return (s1.log [Event.print Msg.perror]) (-1)
  else main_init env fuel (s1.log [Event.usleep 100000, Event.serial_set_rts 0, Event.usleep 100000])

/-- Lines 168-176 of `main`, the mode handshake, followed by `main_connect`. -/
def main_handshake (env : Env) (fuel : Nat) (s : State) : Outcome × State :=
  match vex_detect_mode env s with
  | (Outcome.returned v, s1) =>
    if v ≠ 0 then
      match vex_initialize env s1 with
      | (Outcome.returned w, s2) =>
        if w ≠ 1 then cleanup_return s2 (-1) else main_connect env fuel s2
      | (o, s2) => (o, s2)
    else main_connect env fuel s1
  | (o, s1) => (o, s1)

/-- Lines 135-166 of `main`, started with the initial globals, on the options
and arguments that `getopt` extracts from `argv`: option parsing, parser
selection, opening and configuring the line.  `Sum.inl` is a `return` of
`main`, `Sum.inr` the state in which line 168 is reached.  `code` gives the
numeric value of a `parser_err_t`, `serial_get_baud` is the rate table of
`serial.h`. -/
def main_startup (env : Env) (code : parser_err_t → Int)
    (serial_get_baud : Nat → serial_baud_t) (opts : List getopt_t) (args : List String) :
    (Outcome × State) ⊕ State :=
  let p := parse_options serial_get_baud opts args State.initial
  if p.1 ≠ 0 then Sum.inl (Outcome.returned 0, p.2)
  else
    let s1 := if p.2.quietmode then p.2 else p.2.log [Event.print Msg.banner]
    let q := open_parser_fn env s1
    if q.1 ≠ parser_err_t.PARSER_ERR_OK then Sum.inl (Outcome.returned (code q.1), q.2)
    else
      let dev := q.2.device.getD ""
      let s2 := { q.2.log [Event.serial_open dev] with serial := env.serial_open q.2.trace dev }
      if s2.serial = false then Sum.inl (cleanup_return (s2.log [Event.print Msg.perror]) (-1))
      else
        let s3 := s2.log [Event.serial_setup s2.baudRate 8 serial_parity_t.SERIAL_PARITY_EVEN 1]
        if env.serial_setup s2.trace s2.baudRate 8
            serial_parity_t.SERIAL_PARITY_EVEN 1 = false then
          Sum.inl (cleanup_return (s3.log [Event.print Msg.perror]) (-1))
        else Sum.inr s3

/-- The function `main`.  `fuel` bounds the iterations of the transfer loops. -/
def main (env : Env) (code : parser_err_t → Int) (serial_get_baud : Nat → serial_baud_t)
    (fuel : Nat) (opts : List getopt_t) (args : List String) : Outcome × State :=
  match main_startup env code serial_get_baud opts args with
  | Sum.inl r => r
  | Sum.inr s => main_handshake env fuel s

/-! ## Observations on traces -/

/-- The `stm32_write_memory` commands of a trace: address and length. -/
def write_commands (t : Trace) : List (Nat × Nat) :=
  t.filterMap fun e =>
    match e with
    | Event.stm32_write_memory addr data => some (addr, data.length)
    | _ => none

/-- The replies to the `stm32_read_memory` commands of a trace. -/
def read_replies (t : Trace) : List (Option (List Nat)) :=
  t.filterMap fun e =>
    match e with
    | Event.stm32_read_memory _ _ reply => some reply
    | _ => none

/-- The byte strings handed to `serial_write` in a trace. -/
def serial_written (t : Trace) : List (List Nat) :=
  t.filterMap fun e =>
    match e with
    | Event.serial_write data => some data
    | _ => none

/-- Whether an event is a bootloader command that touches the flash: erase,
write or read. -/
def is_flash_command : Event → Bool
  | Event.stm32_erase_memory _ => true
  | Event.stm32_write_memory _ _ => true
  | Event.stm32_read_memory _ _ _ => true
  | _ => false

/-- A memory command stays inside the flash of `dev` and moves between 1 and
256 bytes; every other event satisfies the predicate. -/
def chunk_in_flash (dev : stm32_dev_t) : Event → Prop
  | Event.stm32_read_memory addr len _ =>
    1 ≤ len ∧ len ≤ 256 ∧ dev.fl_start ≤ addr ∧ addr + len ≤ dev.fl_end
  | Event.stm32_write_memory addr data =>
    1 ≤ data.length ∧ data.length ≤ 256 ∧ dev.fl_start ≤ addr ∧ addr + data.length ≤ dev.fl_end
  | _ => True

/-- The events that `main` can produce before it reaches the handshake of
line 168, and the events of `cleanup`. -/
def is_startup_event : Event → Bool
  | Event.print _ => true
  | Event.parser_init _ => true
  | Event.parser_open _ _ _ => true
  | Event.parser_close _ => true
  | Event.serial_open _ => true
  | Event.serial_setup _ _ serial_parity_t.SERIAL_PARITY_EVEN _ => true
  | Event.usleep _ => true
  | Event.stm32_close => true
  | Event.serial_close => true
  | _ => false

/-- The events by which `vex_initialize` drives the device into the
bootloader: the switch to no-parity line settings, the vendor status query
`C9 36 B8 47 21`, the enter-bootloader command `C9 36 B8 47 25`, and an
asserted RTS line, the start of the control-line pulse. -/
def is_vex_entry : Event → Bool
  | Event.serial_setup _ _ serial_parity_t.SERIAL_PARITY_NONE _ => true
  | Event.serial_write data =>
    data == [0xC9, 0x36, 0xB8, 0x47, 0x21] || data == [0xC9, 0x36, 0xB8, 0x47, 0x25]
  | Event.serial_set_rts level => level != 0
  | _ => false

/-- Whether an event is the call of `stm32_init`. -/
def is_stm32_init : Event → Bool
  | Event.stm32_init _ => true
  | _ => false

/-- The number of vendor status queries `C9 36 B8 47 21` sent in a trace. -/
def status_queries (t : Trace) : Nat :=
  (serial_written t).count [0xC9, 0x36, 0xB8, 0x47, 0x21]

/-- Whether an event is an enter-bootloader command or a change of the RTS
line. -/
def is_entry_action : Event → Bool
  | Event.serial_write data => data == [0xC9, 0x36, 0xB8, 0x47, 0x25]
  | Event.serial_set_rts _ => true
  | _ => false

/-- The trace of `vex_detect_mode` after `j` probe attempts, when none of them
ended the loop: each attempt appends the auto-baud byte and the read of its
reply to the trace `base`. -/
def probe_trace (env : Env) (base : Trace) : Nat → Trace
  | 0 => base
  | j + 1 =>
    probe_trace env base j ++ [Event.serial_write [0x7F],
      Event.serial_read 1
        (read_reply (env.serial_read (probe_trace env base j ++ [Event.serial_write [0x7F]]) 1) 1)]

/-- The reply to probe attempt number `j` (from 0) of `vex_detect_mode`. -/
def probe_reply (env : Env) (base : Trace) (j : Nat) : Option (Nat → Nat) :=
  env.serial_read (probe_trace env base j ++ [Event.serial_write [0x7F]]) 1

/-- The trace of `vex_detect_mode` when its probe loop starts (line 292), after
a successful line setup. -/
def detect_base (s : State) : Trace :=
  s.trace ++ [Event.usleep 100000,
    Event.serial_setup s.baudRate 8 serial_parity_t.SERIAL_PARITY_EVEN 1, Event.usleep 100000]

/-- The state of `vex_initialize` when the first status query starts (line
357), after a successful line setup. -/
def init_base (s : State) : State :=
  s.log [Event.usleep 100000,
    Event.serial_setup s.baudRate 8 serial_parity_t.SERIAL_PARITY_NONE 1,
    Event.usleep 100000, Event.serial_write [0x00, 0x00, 0x00, 0x00], Event.usleep 100000]

/-- The first status query of `vex_initialize` (line 357): its result and the
state after it. -/
def status_first (env : Env) (s : State) : Int × State :=
  vex_sys_status_cmd env (init_base s)

/-- The second status query of `vex_initialize` (lines 359-362), made after
the first one failed. -/
def status_second (env : Env) (s : State) : Int × State :=
  vex_sys_status_cmd env ((status_first env s).2.log [Event.usleep 100000])

/-- A probe reply that lets the loop of `vex_detect_mode` continue: no reply,
or a first byte other than `0x79` and `0x1F`. -/
def no_usable_reply (reply : Option (Nat → Nat)) : Prop :=
  ∀ rep, reply = some rep → rep 0 ≠ 0x79 ∧ rep 0 ≠ 0x1F

/-- The trace `u` extends the trace `t` by events that all satisfy `P`. -/
def TraceExt (P : Event → Prop) (t u : Trace) : Prop :=
  ∃ t', u = t ++ t' ∧ ∀ e ∈ t', P e

/-- The chunks of a region of `size` bytes at `start`, in the words of the
specification: `ceil(size/256)` chunks, the `i`-th at `start + 256*i`, each of
256 bytes except the last, which takes the rest. -/
def expected_chunks (start size : Nat) : List (Nat × Nat) :=
  (List.range ((size + 255) / 256)).map fun i =>
    (start + 256 * i, if i + 1 < (size + 255) / 256 then 256 else size - 256 * ((size + 255) / 256 - 1))

/-- An environment with constant replies: an image of `size` bytes whose byte
at every chunk index `i` is `image i`, a device that acknowledges every
command and fills every read buffer with `readback`. -/
def env_const (size : Nat) (image readback : Nat → Nat) : Env :=
  { serial_open := fun _ _ => true
    serial_setup := fun _ _ _ _ _ => true
    serial_write := fun _ _ => true
    serial_read := fun _ _ => none
    stm32_init := fun _ _ => none
    stm32_read_memory := fun _ _ _ => some readback
    stm32_write_memory := fun _ _ _ => true
    stm32_go := fun _ _ => true
    parser_init := fun _ _ => true
    parser_open := fun _ _ _ _ => parser_err_t.PARSER_ERR_OK
    parser_read := fun _ _ n => some (bytes image n)
    parser_write := fun _ _ _ => parser_err_t.PARSER_ERR_OK
    parser_size := fun _ _ => size }

/-- The data of the last `stm32_write_memory` command of a trace. -/
def last_written : Trace → Option (List Nat)
  | [] => none
  | e :: t =>
    match last_written t with
    | some d => some d
    | none =>
      match e with
      | Event.stm32_write_memory _ d => some d
      | _ => none

/-- An environment like `env_const` whose device reads back the data of the
last write command. -/
def env_echo (size : Nat) (image : Nat → Nat) : Env :=
  { env_const size image (fun _ => 0) with
    stm32_read_memory := fun t _ _ => (last_written t).map fun d i => d.getD i 0 }

/-- The globals after `-w file -v` and a successful `stm32_init` on a device
with 1 KiB of flash at `0x08000000`. -/
def state_write_verify : State :=
  { State.initial with
    wr := true, verify := true, serial := true, p_st := true,
    parser := some parser_kind.PARSER_BINARY,
    stm := some { dev := { fl_start := 0x08000000, fl_end := 0x08000400 } } }

/-- An environment like `env_const` whose `serial_setup` always fails. -/
def env_setup_fails : Env :=
  { env_const 0 (fun _ => 0) (fun _ => 0) with serial_setup := fun _ _ _ _ _ => false }

/-- An environment like `env_const` whose line answers every one-byte read
with `first` and every longer read with bytes `second`. -/
def env_reply (first second : Nat) : Env :=
  { env_const 0 (fun _ => 0) (fun _ => 0) with
    serial_read := fun _ n => if n = 1 then some (fun _ => first) else some (fun _ => second) }

/-- The globals and the trace with which `main` reaches the handshake of line
168 in the run `-w file dev`, when the hex parser accepts the file. -/
def state_started : State :=
  { State.initial with
    trace := [Event.print Msg.banner, Event.parser_init parser_kind.PARSER_HEX,
      Event.parser_open parser_kind.PARSER_HEX "file" false, Event.print Msg.parser_selected,
      Event.serial_open "dev",
      Event.serial_setup serial_baud_t.SERIAL_BAUD_115200 8 serial_parity_t.SERIAL_PARITY_EVEN 1],
    wr := true, serial := true, p_st := true, parser := some parser_kind.PARSER_HEX,
    device := some "dev", filename := "file" }

/-- The globals when `main` reaches the handshake of line 168 after
`-w file dev`: the line is open, nothing else has changed. -/
def state_handshake : State :=
  { State.initial with
    wr := true, serial := true, p_st := true, parser := some parser_kind.PARSER_HEX,
    device := some "dev", filename := "file" }

/-- Whether every `serial_write` of a trace is separated from the next one by
a `usleep`.  `pending` says that a transmission has been made and no delay has
followed it yet. -/
def writes_delayed : Bool → Trace → Bool
  | _, [] => true
  | pending, Event.serial_write _ :: rest => !pending && writes_delayed true rest
  | _, Event.usleep _ :: rest => writes_delayed false rest
  | pending, _ :: rest => writes_delayed pending rest

/-- The levels to which the RTS line is set in a trace, in order. -/
def rts_levels (t : Trace) : List Nat :=
  t.filterMap fun e =>
    match e with
    | Event.serial_set_rts level => some level
    | _ => none

/-- Whether an event is the report of a verify mismatch (line 769). -/
def is_verify_report : Event → Bool
  | Event.print (Msg.verify_failed _ _ _) => true
  | _ => false

/-- Whether an event is a `parser->read` that delivered a chunk. -/
def is_chunk_read : Event → Bool
  | Event.parser_read _ _ (some _) => true
  | _ => false

/-- Whether an event is a `stm32_write_memory` command. -/
def is_write_command : Event → Bool
  | Event.stm32_write_memory _ _ => true
  | _ => false

/-- Whether an event is a bootloader command that reads, writes, erases or
starts execution. -/
def is_bootloader_command : Event → Bool
  | Event.stm32_read_memory _ _ _ => true
  | Event.stm32_write_memory _ _ => true
  | Event.stm32_erase_memory _ => true
  | Event.stm32_go _ => true
  | _ => false

/-- Whether an event is a call of `serial_setup`. -/
def is_serial_setup : Event → Bool
  | Event.serial_setup _ _ _ _ => true
  | _ => false

/-- A rate table that maps every number to 115200 baud. -/
def baud_table : Nat → serial_baud_t := fun _ => serial_baud_t.SERIAL_BAUD_115200

/-- Numeric values of `parser_err_t` in the order of the enumeration. -/
def err_code : parser_err_t → Int
  | parser_err_t.PARSER_ERR_OK => 0
  | parser_err_t.PARSER_ERR_SYSTEM => 1
  | parser_err_t.PARSER_ERR_INVALID_FILE => 2
  | parser_err_t.PARSER_ERR_OTHER c => c

/-- A cooperative environment: the first probe is answered `79`, `stm32_init`
finds a device with 1 KiB of flash at `0x08000000`, every command is
acknowledged and the image has two zero bytes. -/
def env_ok : Env :=
  { env_reply 0x79 0 with
    stm32_init := fun _ _ => some { dev := { fl_start := 0x08000000, fl_end := 0x08000400 } }
    parser_size := fun _ _ => 2
    parser_read := fun _ _ n => some (bytes (fun _ => 0) n) }

/-- An environment like `env_ok` whose parsers cannot open the file. -/
def env_open_fails : Env :=
  { env_ok with parser_open := fun _ _ _ _ => parser_err_t.PARSER_ERR_SYSTEM }

/-- An environment like `env_ok` in which only the first `serial_setup` of the
run succeeds. -/
def env_setup_once : Env :=
  { env_ok with serial_setup := fun t _ _ _ _ => !(t.any is_serial_setup) }

/-- The chunks obtained from `parser->read` in a trace. -/
def chunks_read (t : Trace) : List (List Nat) :=
  t.filterMap fun e =>
    match e with
    | Event.parser_read _ _ (some data) => some data
    | _ => none

/-- The chunks sent in the `stm32_write_memory` commands of a trace. -/
def chunks_written (t : Trace) : List (List Nat) :=
  t.filterMap fun e =>
    match e with
    | Event.stm32_write_memory _ data => some data
    | _ => none

/-- Whether every chunk obtained from the parser in a trace is sent in exactly
one write command, which carries the bytes of that chunk and is issued before
the next chunk is obtained, and no write command is issued otherwise.
`pending` is the chunk obtained and not yet written. -/
def written_once : Option (List Nat) → Trace → Bool
  | pending, [] => pending.isNone
  | pending, Event.parser_read _ _ (some data) :: rest =>
    pending.isNone && written_once (some data) rest
  | pending, Event.stm32_write_memory _ data :: rest =>
    (pending == some data) && written_once none rest
  | pending, _ :: rest => written_once pending rest

/-- The trace ends with a chunk written, read back and reported as a verify
failure at the first index where the bytes read back differ from the bytes
written, and nothing is reported before. -/
def ends_with_first_mismatch (L : Trace) : Prop :=
  ∃ (L0 : Trace) (addr : Nat) (buffer compare : List Nat) (r : Nat),
    L = L0 ++ [Event.stm32_write_memory addr buffer,
      Event.stm32_read_memory addr buffer.length (some compare),
      Event.print (Msg.verify_failed (add32 addr r) (buffer.getD r 0) (compare.getD r 0))] ∧
    (∀ e ∈ L0, is_verify_report e = false) ∧
    compare.length = buffer.length ∧
    r < buffer.length ∧
    (∀ i, i < r → buffer.getD i 0 = compare.getD i 0) ∧
    buffer.getD r 0 ≠ compare.getD r 0

/-- An environment like `env_const` for the 2-byte image `12 34` whose parser
delivers one byte per call. -/
def env_bytewise (readback : Nat → Nat) : Env :=
  { env_const 2 (fun _ => 0) readback with
    parser_read := fun t _ _ => some [if t.any is_chunk_read then 0x34 else 0x12] }

/-! ## Lemmas on the loops of `write_flash` -/

theorem compare_loop_ok_zero (retry : Int) (buffer : List Nat) (compare : Nat → Nat) :
    ∀ (n r : Nat) (f : Int), compare_loop retry buffer compare n r 0 = Except.ok f → f = 0 := by
  intro n
  induction n with
  | zero =>
    intro r f h
    simp only [compare_loop] at h
    injection h with h
    exact h.symm
  | succ n ih =>
    intro r f h
    simp only [compare_loop] at h
    split at h
    · cases h
    · exact ih _ _ h

theorem TraceExt.refl (P : Event → Prop) (t : Trace) : TraceExt P t t :=
  ⟨[], by simp, by simp⟩

theorem TraceExt.snoc {P : Event → Prop} {t u : Trace} (h : TraceExt P t u) {e : Event}
    (he : P e) : TraceExt P t (u ++ [e]) := by
  obtain ⟨t', h1, h2⟩ := h
  refine ⟨t' ++ [e], by rw [h1, List.append_assoc], ?_⟩
  intro x hx
  rcases List.mem_append.1 hx with hx | hx
  · exact h2 x hx
  · rw [List.mem_singleton.1 hx]; exact he

theorem TraceExt.append {P : Event → Prop} {t u : Trace} (h : TraceExt P t u) {l : Trace}
    (hl : ∀ e ∈ l, P e) : TraceExt P t (u ++ l) := by
  obtain ⟨t', h1, h2⟩ := h
  refine ⟨t' ++ l, by rw [h1, List.append_assoc], ?_⟩
  intro x hx
  rcases List.mem_append.1 hx with hx | hx
  · exact h2 x hx
  · exact hl x hx

theorem TraceExt.trans {P : Event → Prop} {t u v : Trace} (h : TraceExt P t u)
    (h' : TraceExt P u v) : TraceExt P t v := by
  obtain ⟨t1, h1, h2⟩ := h
  obtain ⟨t2, h3, h4⟩ := h'
  refine ⟨t1 ++ t2, by rw [h3, h1, List.append_assoc], ?_⟩
  intro x hx
  rcases List.mem_append.1 hx with hx | hx
  · exact h2 x hx
  · exact h4 x hx

theorem TraceExt.mono {P Q : Event → Prop} {t u : Trace} (h : TraceExt P t u)
    (hPQ : ∀ e, P e → Q e) : TraceExt Q t u := by
  obtain ⟨t1, h1, h2⟩ := h
  exact ⟨t1, h1, fun e he => hPQ e (h2 e he)⟩

theorem write_chunk_events (env : Env) (verify : Bool) (retry : Int) (addr : Nat)
    (buffer : List Nat) (len : Nat) (P : Event → Prop)
    (hw : P (Event.stm32_write_memory addr buffer))
    (hr : ∀ reply, P (Event.stm32_read_memory addr len reply))
    (hp : ∀ m, P (Event.print m)) :
    ∀ (fuel : Nat) (failed : Int) (t : Trace),
      TraceExt P t (write_chunk env verify retry addr buffer len fuel failed t).2 := by
  intro fuel
  induction fuel with
  | zero =>
    intro failed t
    exact TraceExt.refl P t
  | succ fuel ih =>
    intro failed t
    simp only [write_chunk]
    split
    · exact ((TraceExt.refl P t).snoc hw).snoc (hp _)
    · split
      · split
        · exact (((TraceExt.refl P t).snoc hw).snoc (hr _)).snoc (hp _)
        · split
          · exact (((TraceExt.refl P t).snoc hw).snoc (hr _)).snoc (hp _)
          · split
            · exact (((TraceExt.refl P t).snoc hw).snoc (hr _)).trans (ih _ _)
            · exact ((TraceExt.refl P t).snoc hw).snoc (hr _)
      · split
        · exact ((TraceExt.refl P t).snoc hw).trans (ih _ _)
        · exact (TraceExt.refl P t).snoc hw

theorem sub32_of_le {a b : Nat} (h : b ≤ a) (ha : a < U32) : sub32 a b = a - b := by
  unfold sub32 U32 at *
  omega

theorem add32_of_lt {a b : Nat} (h : a + b < U32) : add32 a b = a + b := by
  unfold add32 U32 at *
  omega

theorem chunk_len_bounds (dev : stm32_dev_t) (size addr offset : Nat)
    (hend : dev.fl_end < U32) (ha : addr < dev.fl_end) (ho : offset < size) :
    1 ≤ chunk_len dev size addr offset ∧ chunk_len dev size addr offset ≤ 256 ∧
      addr + chunk_len dev size addr offset ≤ dev.fl_end ∧
      offset + chunk_len dev size addr offset ≤ size := by
  unfold chunk_len
  rw [sub32_of_le (Nat.le_of_lt ha) hend]
  simp only []
  split <;> split <;> omega

theorem write_loop_ext (env : Env) (k : parser_kind) (dev : stm32_dev_t) (verify : Bool)
    (retry : Int) (quietmode : Bool) (size : Nat) :
    ∀ (fuel addr offset : Nat) (t : Trace),
      TraceExt (fun _ => True) t
        (write_loop env k dev verify retry quietmode size fuel addr offset t).2 := by
  intro fuel
  induction fuel with
  | zero =>
    intro addr offset t
    exact TraceExt.refl _ t
  | succ fuel ih =>
    intro addr offset t
    simp only [write_loop]
    split
    · split
      · exact (TraceExt.refl _ t).snoc trivial
      · rename_i buffer hbuf
        have hc := write_chunk_events env verify retry addr buffer buffer.length
          (fun _ => True) trivial (fun _ => trivial) (fun _ => trivial) (fuel + 1) 0
        split
        · rename_i o t2 heq
          have h2 := congrArg Prod.snd heq
          simp only at h2
          rw [← h2]
          exact ((TraceExt.refl _ t).snoc trivial).trans (hc _)
        · rename_i t2 heq
          have h2 := congrArg Prod.snd heq
          simp only at h2
          rw [← h2]
          split
          · exact (((TraceExt.refl _ t).snoc trivial).trans (hc _)).trans (ih _ _ _)
          · exact ((((TraceExt.refl _ t).snoc trivial).trans (hc _)).snoc trivial).trans
              (ih _ _ _)
    · split
      · exact ((TraceExt.refl _ t).snoc trivial).snoc trivial
      · exact (TraceExt.refl _ t).snoc trivial

theorem write_loop_in_flash (env : Env) (k : parser_kind) (dev : stm32_dev_t) (verify : Bool)
    (retry : Int) (quietmode : Bool) (size : Nat) (hend : dev.fl_end < U32)
    (hlen : ∀ t n d, env.parser_read t k n = some d → d.length = n) :
    ∀ (fuel addr offset : Nat) (t : Trace), dev.fl_start ≤ addr →
      TraceExt (chunk_in_flash dev) t
        (write_loop env k dev verify retry quietmode size fuel addr offset t).2 := by
  intro fuel
  induction fuel with
  | zero =>
    intro addr offset t _
    exact TraceExt.refl _ t
  | succ fuel ih =>
    intro addr offset t hstart
    simp only [write_loop]
    split
    · rename_i hcond
      obtain ⟨hc1, hc2, hc3, _⟩ := chunk_len_bounds dev size addr offset hend hcond.1 hcond.2
      split
      · exact (TraceExt.refl _ t).snoc trivial
      · rename_i buffer hbuf
        have hl := hlen _ _ _ hbuf
        rw [← hl] at hc1 hc2 hc3
        have hc := write_chunk_events env verify retry addr buffer buffer.length
          (chunk_in_flash dev) ⟨hc1, hc2, hstart, hc3⟩ (fun _ => ⟨hc1, hc2, hstart, hc3⟩)
          (fun _ => trivial) (fuel + 1) 0
        have hnext : dev.fl_start ≤ add32 addr buffer.length := by
          rw [add32_of_lt (by omega)]; omega
        split
        · rename_i o t2 heq
          have h2 := congrArg Prod.snd heq
          simp only at h2
          rw [← h2]
          exact ((TraceExt.refl _ t).snoc trivial).trans (hc _)
        · rename_i t2 heq
          have h2 := congrArg Prod.snd heq
          simp only at h2
          rw [← h2]
          split
          · exact (((TraceExt.refl _ t).snoc trivial).trans (hc _)).trans (ih _ _ _ hnext)
          · exact ((((TraceExt.refl _ t).snoc trivial).trans (hc _)).snoc
              (show chunk_in_flash dev (Event.show_progress _ _) from trivial)).trans
              (ih _ _ _ hnext)
    · split
      · exact ((TraceExt.refl _ t).snoc trivial).snoc trivial
      · exact (TraceExt.refl _ t).snoc trivial

theorem write_commands_append (t u : Trace) :
    write_commands (t ++ u) = write_commands t ++ write_commands u := by
  simp [write_commands, List.filterMap_append]

theorem compare_loop_equal (retry : Int) (buffer : List Nat) (compare : Nat → Nat) :
    ∀ (n r : Nat), (∀ i, r ≤ i → i < r + n → buffer.getD i 0 = compare i) →
      compare_loop retry buffer compare n r 0 = Except.ok 0 := by
  intro n
  induction n with
  | zero => intro r _; rfl
  | succ n ih =>
    intro r h
    have h0 : buffer.getD r 0 = compare r := h r (Nat.le_refl _) (by omega)
    simp only [compare_loop]
    rw [if_neg (fun hcon => hcon.1 h0)]
    exact ih (r + 1) (fun i hi1 hi2 => h i (by omega) (by omega))

theorem write_chunk_good (env : Env) (verify : Bool) (retry : Int) (addr : Nat)
    (buffer : List Nat) (fuel : Nat) (t : Trace)
    (hw : env.stm32_write_memory t addr buffer = true)
    (hv : verify = true → ∃ c, env.stm32_read_memory
      (t ++ [Event.stm32_write_memory addr buffer]) addr buffer.length = some c ∧
      ∀ i, i < buffer.length → buffer.getD i 0 = c i) :
    ∃ t2, write_chunk env verify retry addr buffer buffer.length (fuel + 1) 0 t = (none, t2) ∧
      write_commands t2 = write_commands t ++ [(addr, buffer.length)] := by
  simp only [write_chunk, hw]
  cases verify with
  | false =>
    simp [write_commands_append, write_commands]
  | true =>
    obtain ⟨c, hc, heq⟩ := hv rfl
    simp only [hc]
    rw [compare_loop_equal retry buffer c buffer.length 0 (fun i _ hi => heq i (by omega))]
    simp [write_commands_append, write_commands]

theorem expected_chunks_zero (start : Nat) : expected_chunks start 0 = [] := by
  simp [expected_chunks]

theorem expected_chunks_step (start size : Nat) (h : 0 < size) :
    expected_chunks start size =
      (start, min 256 size) :: expected_chunks (start + min 256 size) (size - min 256 size) := by
  unfold expected_chunks
  obtain ⟨m, hm⟩ : ∃ m, (size + 255) / 256 = m + 1 := ⟨(size + 255) / 256 - 1, by omega⟩
  rw [hm, List.range_succ_eq_map, List.map_cons, List.map_map]
  congr 1
  · simp only [Nat.mul_zero, Nat.add_zero, Prod.mk.injEq, true_and]
    split <;> omega
  · by_cases hs : size ≤ 256
    · have hm0 : m = 0 := by omega
      subst hm0
      have : (size - min 256 size + 255) / 256 = 0 := by omega
      rw [this]
      simp
    · have h256 : min 256 size = 256 := by omega
      have hm' : (size - min 256 size + 255) / 256 = m := by omega
      rw [hm']
      apply List.map_congr_left
      intro i hi
      have hi' : i < m := List.mem_range.1 hi
      simp only [Function.comp, Prod.mk.injEq]
      constructor
      · omega
      · split <;> split <;> omega

theorem chunk_len_eq (dev : stm32_dev_t) (size addr offset : Nat) (hend : dev.fl_end < U32)
    (ha : addr < dev.fl_end) (hfit : addr + (size - offset) ≤ dev.fl_end) :
    chunk_len dev size addr offset = min 256 (size - offset) := by
  unfold chunk_len
  rw [sub32_of_le (Nat.le_of_lt ha) hend]
  simp only []
  split <;> split <;> omega

theorem write_loop_good (env : Env) (k : parser_kind) (dev : stm32_dev_t) (verify : Bool)
    (retry : Int) (quietmode : Bool) (size : Nat) (hend : dev.fl_end < U32)
    (hlen : ∀ t n, ∃ d, env.parser_read t k n = some d ∧ d.length = n)
    (hw : ∀ t a d, env.stm32_write_memory t a d = true)
    (hv : verify = true → ∀ t a d, ∃ c,
      env.stm32_read_memory (t ++ [Event.stm32_write_memory a d]) a d.length = some c ∧
      ∀ i, i < d.length → d.getD i 0 = c i) :
    ∀ (fuel addr offset : Nat) (t : Trace), offset ≤ size →
      addr + (size - offset) ≤ dev.fl_end → (size - offset + 255) / 256 < fuel →
      (write_loop env k dev verify retry quietmode size fuel addr offset t).1 =
          Outcome.returned 1 ∧
        write_commands (write_loop env k dev verify retry quietmode size fuel addr offset t).2 =
          write_commands t ++ expected_chunks addr (size - offset) := by
  intro fuel
  induction fuel with
  | zero => intro addr offset t _ _ h; omega
  | succ fuel ih =>
    intro addr offset t ho hfit hfuel
    simp only [write_loop]
    by_cases hcond : addr < dev.fl_end ∧ offset < size
    · rw [if_pos hcond]
      have hcl := chunk_len_eq dev size addr offset hend hcond.1 hfit
      obtain ⟨d, hd, hdl⟩ := hlen t (chunk_len dev size addr offset)
      rw [hcl] at hdl
      simp only [hd]
      obtain ⟨t2, hchunk, hwc⟩ := write_chunk_good env verify retry addr d fuel
        (t ++ [Event.parser_read k (chunk_len dev size addr offset) (some d)])
        (hw _ _ _) (fun hver => hv hver _ _ _)
      rw [hchunk]
      simp only []
      have hadd : add32 addr d.length = addr + d.length := add32_of_lt (by omega)
      have hrem : size - (offset + d.length) = size - offset - min 256 (size - offset) := by
        omega
      have hstep := expected_chunks_step addr (size - offset) (by omega)
      have hih := ih (add32 addr d.length) (offset + d.length)
        (if quietmode = true then t2
          else t2 ++ [Event.show_progress (offset + d.length) size])
        (by omega) (by rw [hadd]; omega) (by omega)
      have hq : write_commands (if quietmode = true then t2
          else t2 ++ [Event.show_progress (offset + d.length) size]) = write_commands t2 := by
        split
        · rfl
        · simp [write_commands_append, write_commands]
      refine ⟨hih.1, ?_⟩
      rw [hih.2, hq, hwc, write_commands_append, hstep, hadd, hrem, hdl]
      simp [write_commands]
    · rw [if_neg hcond]
      have hzero : size - offset = 0 := by
        by_contra hne
        exact hcond ⟨by omega, by omega⟩
      rw [hzero, expected_chunks_zero]
      refine ⟨rfl, ?_⟩
      simp only [List.append_nil]
      split <;> simp [write_commands_append, write_commands]

theorem expected_chunks_sum (size : Nat) :
    ∀ start, ((expected_chunks start size).map Prod.snd).sum = size := by
  induction size using Nat.strong_induction_on with
  | _ size ih =>
    intro start
    by_cases h : size = 0
    · subst h; simp [expected_chunks_zero]
    · rw [expected_chunks_step start size (by omega), List.map_cons, List.sum_cons,
        ih (size - min 256 size) (by omega)]
      simp only []
      omega

theorem last_written_snoc (t : Trace) (a : Nat) (d : List Nat) :
    last_written (t ++ [Event.stm32_write_memory a d]) = some d := by
  induction t with
  | nil => rfl
  | cons e t ih => simp [last_written, ih]

/-! ## Lemmas on the loop of `read_flash` -/

theorem read_len_bounds (dev : stm32_dev_t) (addr : Nat) (hend : dev.fl_end < U32)
    (ha : addr < dev.fl_end) :
    1 ≤ read_len dev addr ∧ read_len dev addr ≤ 256 ∧ addr + read_len dev addr ≤ dev.fl_end := by
  unfold read_len
  rw [sub32_of_le (Nat.le_of_lt ha) hend]
  simp only []
  split <;> omega

theorem read_loop_in_flash (env : Env) (k : parser_kind) (dev : stm32_dev_t)
    (quietmode : Bool) (hend : dev.fl_end < U32) :
    ∀ (fuel addr : Nat) (t : Trace), dev.fl_start ≤ addr →
      TraceExt (chunk_in_flash dev) t (read_loop env k dev quietmode fuel addr t).2 := by
  intro fuel
  induction fuel with
  | zero =>
    intro addr t _
    exact TraceExt.refl _ t
  | succ fuel ih =>
    intro addr t hstart
    simp only [read_loop]
    split
    · rename_i hcond
      obtain ⟨h1, h2, h3⟩ := read_len_bounds dev addr hend hcond
      have hr : ∀ reply, chunk_in_flash dev
          (Event.stm32_read_memory addr (read_len dev addr) reply) :=
        fun _ => ⟨h1, h2, hstart, h3⟩
      have hnext : dev.fl_start ≤ add32 addr (read_len dev addr) := by
        rw [add32_of_lt (by omega)]; omega
      split
      · exact ((TraceExt.refl _ t).snoc (hr _)).snoc
          (show chunk_in_flash dev (Event.print _) from trivial)
      · split
        · exact ((TraceExt.refl _ t).snoc (hr _)).snoc
            (show chunk_in_flash dev (Event.parser_write _ _) from trivial)
        · split
          · exact (((TraceExt.refl _ t).snoc (hr _)).snoc
              (show chunk_in_flash dev (Event.parser_write _ _) from trivial)).trans
              (ih _ _ hnext)
          · exact ((((TraceExt.refl _ t).snoc (hr _)).snoc
              (show chunk_in_flash dev (Event.parser_write _ _) from trivial)).snoc
              (show chunk_in_flash dev (Event.show_progress _ _) from trivial)).trans
              (ih _ _ hnext)
    · split
      · exact (TraceExt.refl _ t).snoc
          (show chunk_in_flash dev (Event.transfer_timer _ _) from trivial)
      · exact ((TraceExt.refl _ t).snoc
          (show chunk_in_flash dev (Event.print _) from trivial)).snoc
          (show chunk_in_flash dev (Event.transfer_timer _ _) from trivial)

theorem bytes_length (buf : Nat → Nat) (len : Nat) : (bytes buf len).length = len := by
  simp [bytes]

theorem TraceExt.log {P : Event → Prop} {t : Trace} {s : State} (h : TraceExt P t s.trace)
    {l : List Event} (hl : ∀ e ∈ l, P e) : TraceExt P t (s.log l).trace :=
  h.append hl

theorem option_case_ext (P : Event → Prop) (hp : ∀ m, P (Event.print m))
    (gb : Nat → serial_baud_t) (o : getopt_t) (s : State) :
    TraceExt P s.trace (option_case gb o s).2.trace := by
  unfold option_case
  by_cases h : o.c = 'X'
  · rw [if_pos h]
    split <;> exact TraceExt.refl P s.trace
  rw [if_neg h]
  clear h
  by_cases h : o.c = '0'
  · rw [if_pos h]
    exact TraceExt.refl P s.trace
  rw [if_neg h]
  clear h
  by_cases h : o.c = '1'
  · rw [if_pos h]
    exact TraceExt.refl P s.trace
  rw [if_neg h]
  clear h
  by_cases h : o.c = '2'
  · rw [if_pos h]
    exact TraceExt.refl P s.trace
  rw [if_neg h]
  clear h
  by_cases h : o.c = 'q'
  · rw [if_pos h]
    exact TraceExt.refl P s.trace
  rw [if_neg h]
  clear h
  by_cases h : o.c = 'b'
  · rw [if_pos h]
    split
    · exact (TraceExt.refl P s.trace).snoc (hp _)
    · exact TraceExt.refl P s.trace
  rw [if_neg h]
  clear h
  by_cases h : o.c = 'r' ∨ o.c = 'w'
  · rw [if_pos h]
    dsimp only
    split
    · exact (TraceExt.refl P s.trace).snoc (hp _)
    · exact TraceExt.refl P s.trace
  rw [if_neg h]
  clear h
  by_cases h : o.c = 'e'
  · rw [if_pos h]
    dsimp only
    split
    · exact (TraceExt.refl P s.trace).snoc (hp _)
    · exact TraceExt.refl P s.trace
  rw [if_neg h]
  clear h
  by_cases h : o.c = 'u'
  · rw [if_pos h]
    dsimp only
    split
    · exact (TraceExt.refl P s.trace).snoc (hp _)
    · exact TraceExt.refl P s.trace
  rw [if_neg h]
  clear h
  by_cases h : o.c = 'v'
  · rw [if_pos h]
    exact TraceExt.refl P s.trace
  rw [if_neg h]
  clear h
  by_cases h : o.c = 'n'
  · rw [if_pos h]
    exact TraceExt.refl P s.trace
  rw [if_neg h]
  clear h
  by_cases h : o.c = 'g'
  · rw [if_pos h]
    exact TraceExt.refl P s.trace
  rw [if_neg h]
  clear h
  by_cases h : o.c = 'G'
  · rw [if_pos h]
    exact TraceExt.refl P s.trace
  rw [if_neg h]
  clear h
  by_cases h : o.c = 'f'
  · rw [if_pos h]
    exact TraceExt.refl P s.trace
  rw [if_neg h]
  clear h
  by_cases h : o.c = 'c'
  · rw [if_pos h]
    exact TraceExt.refl P s.trace
  rw [if_neg h]
  clear h
  by_cases h : o.c = 'h'
  · rw [if_pos h]
    exact (TraceExt.refl P s.trace).snoc (hp _)
  rw [if_neg h]
  clear h
  exact TraceExt.refl P s.trace

theorem option_case_fields (gb : Nat → serial_baud_t) (o : getopt_t) (s : State) :
    (option_case gb o s).2.serial = s.serial ∧ (option_case gb o s).2.stm = s.stm ∧
      (option_case gb o s).2.p_st = s.p_st ∧ (option_case gb o s).2.parser = s.parser := by
  unfold option_case
  by_cases h : o.c = 'X'
  · rw [if_pos h]
    split <;> exact ⟨rfl, rfl, rfl, rfl⟩
  rw [if_neg h]
  clear h
  by_cases h : o.c = '0'
  · rw [if_pos h]
    exact ⟨rfl, rfl, rfl, rfl⟩
  rw [if_neg h]
  clear h
  by_cases h : o.c = '1'
  · rw [if_pos h]
    exact ⟨rfl, rfl, rfl, rfl⟩
  rw [if_neg h]
  clear h
  by_cases h : o.c = '2'
  · rw [if_pos h]
    exact ⟨rfl, rfl, rfl, rfl⟩
  rw [if_neg h]
  clear h
  by_cases h : o.c = 'q'
  · rw [if_pos h]
    exact ⟨rfl, rfl, rfl, rfl⟩
  rw [if_neg h]
  clear h
  by_cases h : o.c = 'b'
  · rw [if_pos h]
    split
    · exact ⟨rfl, rfl, rfl, rfl⟩
    · exact ⟨rfl, rfl, rfl, rfl⟩
  rw [if_neg h]
  clear h
  by_cases h : o.c = 'r' ∨ o.c = 'w'
  · rw [if_pos h]
    dsimp only
    split
    · exact ⟨rfl, rfl, rfl, rfl⟩
    · exact ⟨rfl, rfl, rfl, rfl⟩
  rw [if_neg h]
  clear h
  by_cases h : o.c = 'e'
  · rw [if_pos h]
    dsimp only
    split
    · exact ⟨rfl, rfl, rfl, rfl⟩
    · exact ⟨rfl, rfl, rfl, rfl⟩
  rw [if_neg h]
  clear h
  by_cases h : o.c = 'u'
  · rw [if_pos h]
    dsimp only
    split
    · exact ⟨rfl, rfl, rfl, rfl⟩
    · exact ⟨rfl, rfl, rfl, rfl⟩
  rw [if_neg h]
  clear h
  by_cases h : o.c = 'v'
  · rw [if_pos h]
    exact ⟨rfl, rfl, rfl, rfl⟩
  rw [if_neg h]
  clear h
  by_cases h : o.c = 'n'
  · rw [if_pos h]
    exact ⟨rfl, rfl, rfl, rfl⟩
  rw [if_neg h]
  clear h
  by_cases h : o.c = 'g'
  · rw [if_pos h]
    exact ⟨rfl, rfl, rfl, rfl⟩
  rw [if_neg h]
  clear h
  by_cases h : o.c = 'G'
  · rw [if_pos h]
    exact ⟨rfl, rfl, rfl, rfl⟩
  rw [if_neg h]
  clear h
  by_cases h : o.c = 'f'
  · rw [if_pos h]
    exact ⟨rfl, rfl, rfl, rfl⟩
  rw [if_neg h]
  clear h
  by_cases h : o.c = 'c'
  · rw [if_pos h]
    exact ⟨rfl, rfl, rfl, rfl⟩
  rw [if_neg h]
  clear h
  by_cases h : o.c = 'h'
  · rw [if_pos h]
    exact ⟨rfl, rfl, rfl, rfl⟩
  rw [if_neg h]
  clear h
  exact ⟨rfl, rfl, rfl, rfl⟩

theorem option_loop_ext (P : Event → Prop) (hp : ∀ m, P (Event.print m))
    (gb : Nat → serial_baud_t) :
    ∀ (opts : List getopt_t) (s : State), TraceExt P s.trace (option_loop gb opts s).2.trace := by
  intro opts
  induction opts with
  | nil => intro s; exact TraceExt.refl P s.trace
  | cons o rest ih =>
    intro s
    simp only [option_loop]
    have h := option_case_ext P hp gb o s
    split
    · rename_i v s1 heq
      rw [heq] at h
      exact h
    · rename_i s1 heq
      rw [heq] at h
      exact h.trans (ih s1)

theorem option_loop_fields (gb : Nat → serial_baud_t) :
    ∀ (opts : List getopt_t) (s : State),
      (option_loop gb opts s).2.serial = s.serial ∧ (option_loop gb opts s).2.stm = s.stm ∧
        (option_loop gb opts s).2.p_st = s.p_st ∧ (option_loop gb opts s).2.parser = s.parser := by
  intro opts
  induction opts with
  | nil => intro s; exact ⟨rfl, rfl, rfl, rfl⟩
  | cons o rest ih =>
    intro s
    simp only [option_loop]
    have h := option_case_fields gb o s
    split
    · rename_i v s1 heq
      rw [heq] at h
      exact h
    · rename_i s1 heq
      rw [heq] at h
      obtain ⟨h1, h2, h3, h4⟩ := ih s1
      exact ⟨h1.trans h.1, h2.trans h.2.1, h3.trans h.2.2.1, h4.trans h.2.2.2⟩

theorem device_loop_ext (P : Event → Prop) (hp : ∀ m, P (Event.print m)) :
    ∀ (args : List String) (s : State), TraceExt P s.trace (device_loop args s).2.trace := by
  intro args
  induction args with
  | nil => intro s; exact TraceExt.refl P s.trace
  | cons a rest ih =>
    intro s
    simp only [device_loop]
    split
    · exact (TraceExt.refl P s.trace).log (by simp [hp])
    · exact ih _

theorem device_loop_fields :
    ∀ (args : List String) (s : State),
      (device_loop args s).2.serial = s.serial ∧ (device_loop args s).2.stm = s.stm ∧
        (device_loop args s).2.p_st = s.p_st ∧ (device_loop args s).2.parser = s.parser := by
  intro args
  induction args with
  | nil => intro s; exact ⟨rfl, rfl, rfl, rfl⟩
  | cons a rest ih =>
    intro s
    simp only [device_loop]
    split
    · exact ⟨rfl, rfl, rfl, rfl⟩
    · exact ih _

theorem parse_options_ext (P : Event → Prop) (hp : ∀ m, P (Event.print m))
    (gb : Nat → serial_baud_t) (opts : List getopt_t) (args : List String) (s : State) :
    TraceExt P s.trace (parse_options gb opts args s).2.trace := by
  unfold parse_options
  have h1 := option_loop_ext P hp gb opts s
  split
  · rename_i v s1 heq
    rw [heq] at h1
    exact h1
  · rename_i s1 heq
    rw [heq] at h1
    have h2 := device_loop_ext P hp args s1
    split
    · rename_i v s2 heq2
      rw [heq2] at h2
      exact h1.trans h2
    · rename_i s2 heq2
      rw [heq2] at h2
      split
      · exact (h1.trans h2).log (by simp [hp])
      · split
        · exact (h1.trans h2).log (by simp [hp])
        · exact h1.trans h2

theorem parse_options_fields (gb : Nat → serial_baud_t) (opts : List getopt_t)
    (args : List String) (s : State) :
    (parse_options gb opts args s).2.serial = s.serial ∧
      (parse_options gb opts args s).2.stm = s.stm ∧
      (parse_options gb opts args s).2.p_st = s.p_st ∧
      (parse_options gb opts args s).2.parser = s.parser := by
  unfold parse_options
  have h1 := option_loop_fields gb opts s
  split
  · rename_i v s1 heq
    rw [heq] at h1
    exact h1
  · rename_i s1 heq
    rw [heq] at h1
    have h2 := device_loop_fields args s1
    split
    · rename_i v s2 heq2
      rw [heq2] at h2
      exact ⟨h2.1.trans h1.1, h2.2.1.trans h1.2.1, h2.2.2.1.trans h1.2.2.1,
        h2.2.2.2.trans h1.2.2.2⟩
    · rename_i s2 heq2
      rw [heq2] at h2
      have h3 : s2.serial = s.serial ∧ s2.stm = s.stm ∧ s2.p_st = s.p_st ∧
          s2.parser = s.parser :=
        ⟨h2.1.trans h1.1, h2.2.1.trans h1.2.1, h2.2.2.1.trans h1.2.2.1,
          h2.2.2.2.trans h1.2.2.2⟩
      split
      · exact h3
      · split
        · exact h3
        · exact h3

/-! ## Lemmas on parser selection, `cleanup` and the start of `main` -/

theorem startup_event_calm (e : Event) (h : is_startup_event e = true) :
    is_vex_entry e = false ∧ is_stm32_init e = false := by
  cases e <;> simp_all [is_startup_event, is_vex_entry, is_stm32_init]
  rename_i baud bits parity stop
  cases parity <;> simp_all [is_startup_event, is_vex_entry]

theorem open_binary_ext (env : Env) (s : State) :
    TraceExt (fun e => is_startup_event e = true) s.trace (open_binary env s).2.trace := by
  unfold open_binary
  dsimp only
  split
  · exact ((TraceExt.refl _ s.trace).log (by simp [is_startup_event])).log
      (by simp [is_startup_event])
  · split
    · split
      · exact ((((TraceExt.refl _ s.trace).log (by simp [is_startup_event])).log
          (by simp [is_startup_event])).log (by simp [is_startup_event])).log
          (by simp [is_startup_event])
      · exact (((TraceExt.refl _ s.trace).log (by simp [is_startup_event])).log
          (by simp [is_startup_event])).log (by simp [is_startup_event])
    · exact (((TraceExt.refl _ s.trace).log (by simp [is_startup_event])).log
        (by simp [is_startup_event])).log (by simp [is_startup_event])

theorem open_binary_fields (env : Env) (s : State) :
    (open_binary env s).2.serial = s.serial ∧ (open_binary env s).2.stm = s.stm ∧
      ((open_binary env s).2.p_st = true → (open_binary env s).2.parser.isSome = true) := by
  unfold open_binary
  dsimp only
  split
  · exact ⟨rfl, rfl, fun _ => rfl⟩
  · split
    · split
      · exact ⟨rfl, rfl, fun _ => rfl⟩
      · exact ⟨rfl, rfl, fun _ => rfl⟩
    · exact ⟨rfl, rfl, fun _ => rfl⟩

theorem open_parser_fn_ext (env : Env) (s : State) :
    TraceExt (fun e => is_startup_event e = true) s.trace (open_parser_fn env s).2.trace := by
  unfold open_parser_fn
  dsimp only
  split
  · split
    · exact open_binary_ext env s
    · split
      · exact ((TraceExt.refl _ s.trace).log (by simp [is_startup_event])).log
          (by simp [is_startup_event])
      · split
        · split
          · refine TraceExt.trans ?_ (open_binary_ext env _)
            exact (((TraceExt.refl _ s.trace).log (by simp [is_startup_event])).log
              (by simp [is_startup_event])).log (by simp [is_startup_event])
          · split
            · exact ((((TraceExt.refl _ s.trace).log (by simp [is_startup_event])).log
                (by simp [is_startup_event])).log (by simp [is_startup_event])).log
                (by simp [is_startup_event])
            · exact (((TraceExt.refl _ s.trace).log (by simp [is_startup_event])).log
                (by simp [is_startup_event])).log (by simp [is_startup_event])
        · exact (((TraceExt.refl _ s.trace).log (by simp [is_startup_event])).log
            (by simp [is_startup_event])).log (by simp [is_startup_event])
  · split
    · split
      · exact ((TraceExt.refl _ s.trace).log (by simp [is_startup_event])).log
          (by simp [is_startup_event])
      · exact (TraceExt.refl _ s.trace).log (by simp [is_startup_event])
    · exact TraceExt.refl _ s.trace

theorem open_parser_fn_fields (env : Env) (s : State)
    (hs : s.p_st = true → s.parser.isSome = true) :
    (open_parser_fn env s).2.serial = s.serial ∧ (open_parser_fn env s).2.stm = s.stm ∧
      ((open_parser_fn env s).2.p_st = true → (open_parser_fn env s).2.parser.isSome = true) := by
  unfold open_parser_fn
  dsimp only
  split
  · split
    · exact open_binary_fields env s
    · split
      · exact ⟨rfl, rfl, fun _ => rfl⟩
      · split
        · split
          · exact open_binary_fields env _
          · split
            · exact ⟨rfl, rfl, fun _ => rfl⟩
            · exact ⟨rfl, rfl, fun _ => rfl⟩
        · exact ⟨rfl, rfl, fun _ => rfl⟩
  · split
    · split
      · exact ⟨rfl, rfl, fun _ => rfl⟩
      · exact ⟨rfl, rfl, fun _ => rfl⟩
    · exact ⟨rfl, rfl, hs⟩

theorem cleanup_return_ext (s : State) (v : Int) :
    TraceExt (fun e => is_startup_event e = true) s.trace (cleanup_return s v).2.trace := by
  unfold cleanup_return cleanup
  dsimp only
  cases hp : s.p_st <;> cases hk : s.parser <;> cases hstm : s.stm <;> cases hser : s.serial <;>
    simp [State.log, hp, hk, hstm, hser] <;>
    first
      | exact TraceExt.refl _ s.trace
      | exact (TraceExt.refl _ s.trace).append (by simp [is_startup_event])

theorem cleanup_return_fields (s : State) (v : Int) :
    (cleanup_return s v).2.serial = s.serial ∧ (cleanup_return s v).2.stm = s.stm ∧
      (cleanup_return s v).2.p_st = s.p_st ∧ (cleanup_return s v).2.parser = s.parser := by
  unfold cleanup_return cleanup
  dsimp only
  cases hp : s.p_st <;> cases hk : s.parser <;> cases hstm : s.stm <;> cases hser : s.serial <;>
    simp [State.log, hp, hk, hstm, hser]

theorem cleanup_return_ok (s : State) (v : Int) (hs : s.p_st = true → s.parser.isSome = true) :
    (cleanup_return s v).1 = Outcome.returned v := by
  unfold cleanup_return cleanup
  dsimp only
  cases hp : s.p_st <;> cases hk : s.parser <;> simp [State.log, hp, hk] at hs ⊢

theorem main_startup_spec (env : Env) (code : parser_err_t → Int)
    (gb : Nat → serial_baud_t) (opts : List getopt_t) (args : List String) (s : State)
    (h : main_startup env code gb opts args = Sum.inr s) :
    (∀ e ∈ s.trace, is_startup_event e = true) ∧ s.serial = true ∧ s.stm = none ∧
      (s.p_st = true → s.parser.isSome = true) := by
  unfold main_startup at h
  dsimp only at h
  have hp1 := parse_options_ext (fun e => is_startup_event e = true) (fun _ => rfl) gb opts args
    State.initial
  have hp2 := parse_options_fields gb opts args State.initial
  generalize parse_options gb opts args State.initial = p at h hp1 hp2
  split at h
  · cases h
  · have hq1 := open_parser_fn_ext env
      (if p.2.quietmode = true then p.2 else p.2.log [Event.print Msg.banner])
    have hq2 := open_parser_fn_fields env
      (if p.2.quietmode = true then p.2 else p.2.log [Event.print Msg.banner])
      (by
        intro hpst
        have : p.2.p_st = true := by
          split at hpst
          · exact hpst
          · exact hpst
        rw [hp2.2.2.1] at this
        cases this)
    have hs1 : TraceExt (fun e => is_startup_event e = true) State.initial.trace
        (if p.2.quietmode = true then p.2 else p.2.log [Event.print Msg.banner]).trace := by
      split
      · exact hp1
      · exact hp1.log (by simp [is_startup_event])
    have hstm1 : (if p.2.quietmode = true then p.2
        else p.2.log [Event.print Msg.banner]).stm = none := by
      split
      · exact hp2.2.1
      · exact hp2.2.1
    generalize open_parser_fn env
      (if p.2.quietmode = true then p.2 else p.2.log [Event.print Msg.banner]) = q
      at h hq1 hq2
    split at h
    · cases h
    · split at h
      · cases h
      · rename_i hser
        split at h
        · cases h
        · injection h with h
          subst h
          refine ⟨?_, ?_, ?_, ?_⟩
          · have hall := ((hs1.trans hq1).log
              (l := [Event.serial_open (q.2.device.getD "")])
              (by simp [is_startup_event])).append
              (l := [Event.serial_setup q.2.baudRate 8 serial_parity_t.SERIAL_PARITY_EVEN 1])
              (by simp [is_startup_event])
            obtain ⟨t', ht', hall'⟩ := hall
            intro e he
            simp only [State.log] at he ht'
            rw [ht'] at he
            simp only [State.initial, List.nil_append] at he
            exact hall' e he
          · simpa [State.log] using hser
          · simp only [State.log]
            rw [hq2.2.1]
            exact hstm1
          · simpa [State.log] using hq2.2.2

theorem read_loop_ext (env : Env) (k : parser_kind) (dev : stm32_dev_t) (quietmode : Bool) :
    ∀ (fuel addr : Nat) (t : Trace),
      TraceExt (fun _ => True) t (read_loop env k dev quietmode fuel addr t).2 := by
  intro fuel
  induction fuel with
  | zero => intro addr t; exact TraceExt.refl _ t
  | succ fuel ih =>
    intro addr t
    simp only [read_loop]
    split
    · split
      · exact ((TraceExt.refl _ t).snoc trivial).snoc trivial
      · split
        · exact ((TraceExt.refl _ t).snoc trivial).snoc trivial
        · split
          · exact (((TraceExt.refl _ t).snoc trivial).snoc trivial).trans (ih _ _)
          · exact ((((TraceExt.refl _ t).snoc trivial).snoc trivial).snoc trivial).trans
              (ih _ _)
    · split
      · exact (TraceExt.refl _ t).snoc trivial
      · exact ((TraceExt.refl _ t).snoc trivial).snoc trivial

theorem read_flash_ext (env : Env) (fuel : Nat) (s : State) :
    TraceExt (fun _ => True) s.trace (read_flash env fuel s).2.trace := by
  unfold read_flash
  split
  · split
    · dsimp only
      split
      · split
        · exact (((TraceExt.refl _ s.trace).snoc trivial).snoc trivial).snoc trivial
            |>.snoc trivial
        · exact (((TraceExt.refl _ s.trace).snoc trivial).snoc trivial).snoc trivial
      · exact TraceExt.trans
          ((((TraceExt.refl _ s.trace).snoc trivial).snoc trivial).append
            (fun _ _ => trivial))
          (read_loop_ext env _ _ _ fuel _ _)
    · exact (TraceExt.refl _ s.trace).snoc trivial
  · exact TraceExt.refl _ s.trace

theorem write_flash_ext (env : Env) (fuel : Nat) (s : State) :
    TraceExt (fun _ => True) s.trace (write_flash env fuel s).2.trace := by
  unfold write_flash
  split
  · split
    · dsimp only
      split
      · exact (((TraceExt.refl _ s.trace).snoc trivial).snoc trivial).snoc trivial
      · exact TraceExt.trans
          (((((TraceExt.refl _ s.trace).snoc trivial).snoc trivial).snoc trivial).append
            (fun _ _ => trivial))
          (write_loop_ext env _ _ _ _ _ _ fuel _ _ _)
    · exact (TraceExt.refl _ s.trace).snoc trivial
  · exact TraceExt.refl _ s.trace

theorem cleanup_ext (s s1 : State) (h : cleanup s = some s1) :
    TraceExt (fun e => is_startup_event e = true) s.trace s1.trace := by
  have h1 := cleanup_return_ext s 0
  unfold cleanup_return at h1
  rw [h] at h1
  exact h1

theorem write_unprotect_flash_ext (s : State) :
    TraceExt (fun _ => True) s.trace (write_unprotect_flash s).2.trace := by
  unfold write_unprotect_flash
  cases s.wu <;> cases hq : s.quietmode <;> simp [State.log, hq]
  · exact TraceExt.refl _ _
  · exact TraceExt.refl _ _
  · exact (TraceExt.refl _ _).append (fun _ _ => trivial)
  · exact (TraceExt.refl _ _).append (fun _ _ => trivial)

theorem main_execute_ext (env : Env) (s : State) :
    TraceExt (fun _ => True) s.trace (main_execute env s).trace := by
  unfold main_execute
  split
  · split
    · dsimp only
      split_ifs <;> first
        | exact TraceExt.refl _ s.trace
        | exact (TraceExt.refl _ s.trace).append (fun _ _ => trivial)
        | exact ((TraceExt.refl _ s.trace).append (fun _ _ => trivial)).append
            (fun _ _ => trivial)
        | exact (((TraceExt.refl _ s.trace).append (fun _ _ => trivial)).append
            (fun _ _ => trivial)).append (fun _ _ => trivial)
    · exact TraceExt.refl _ _
  · exact TraceExt.refl _ _

theorem main_finish_ext (env : Env) (s : State) :
    TraceExt (fun _ => True) s.trace (main_finish env s).2.trace := by
  unfold main_finish
  split
  · rename_i s2 hc
    exact ((main_execute_ext env s).trans
      ((cleanup_ext _ _ hc).mono (fun _ _ => trivial))).log (fun _ _ => trivial)
  · exact main_execute_ext env s

theorem main_operation_ext (env : Env) (fuel : Nat) (s : State) :
    TraceExt (fun _ => True) s.trace (main_operation env fuel s).2.trace := by
  unfold main_operation
  split
  · have h := read_flash_ext env fuel s
    split
    · rename_i v s1 heq
      rw [heq] at h
      split
      · exact h.trans ((cleanup_return_ext s1 (-1)).mono (fun _ _ => trivial))
      · exact h.trans (main_finish_ext env s1)
    · rename_i o s1 _ heq
      rw [heq] at h
      exact h
  · split
    · exact (write_unprotect_flash_ext s).trans (main_finish_ext env _)
    · split
      · have h := write_flash_ext env fuel s
        split
        · rename_i v s1 heq
          rw [heq] at h
          split
          · exact h.trans ((cleanup_return_ext s1 (-1)).mono (fun _ _ => trivial))
          · exact h.trans (main_finish_ext env s1)
        · rename_i o s1 _ heq
          rw [heq] at h
          exact h
      · exact main_finish_ext env s

theorem TraceExt.of_all {P : Event → Prop} {t : Trace} (h : ∀ e ∈ t, P e) : TraceExt P [] t :=
  ⟨t, by simp, h⟩

theorem TraceExt.all {P : Event → Prop} {t : Trace} (h : TraceExt P [] t) : ∀ e ∈ t, P e := by
  obtain ⟨t', ht', hall⟩ := h
  rw [ht', List.nil_append]
  exact hall

theorem main_init_ext (env : Env) (fuel : Nat) (s : State) :
    ∃ rest, (main_init env fuel s).2.trace = s.trace ++ Event.stm32_init s.init_flag :: rest := by
  have hconv : ∀ (s1 : State) (r : Outcome × State),
      s1.trace = s.trace ++ [Event.stm32_init s.init_flag] →
      TraceExt (fun _ => True) s1.trace r.2.trace →
      ∃ rest, r.2.trace = s.trace ++ Event.stm32_init s.init_flag :: rest := by
    intro s1 r htr hext
    obtain ⟨rest, hrest, _⟩ := hext
    exact ⟨rest, by rw [hrest, htr]; simp⟩
  unfold main_init
  dsimp only
  split
  · exact hconv
      { s.log [Event.stm32_init s.init_flag] with stm := env.stm32_init s.trace s.init_flag } _
      rfl ((cleanup_return_ext _ (-1)).mono (fun _ _ => trivial))
  · split
    · exact hconv
        { s.log [Event.stm32_init s.init_flag] with stm := env.stm32_init s.trace s.init_flag }
        _ rfl (main_operation_ext env fuel _)
    · exact hconv
        { s.log [Event.stm32_init s.init_flag] with stm := env.stm32_init s.trace s.init_flag }
        _ rfl
        (TraceExt.trans
          (TraceExt.log
            (s := { s.log [Event.stm32_init s.init_flag] with
              stm := env.stm32_init s.trace s.init_flag })
            (TraceExt.refl _ _) (l := [Event.print Msg.device_info]) (fun _ _ => trivial))
          (main_operation_ext env fuel
            (State.log { s.log [Event.stm32_init s.init_flag] with
              stm := env.stm32_init s.trace s.init_flag } [Event.print Msg.device_info])))

theorem main_connect_before_init (env : Env) (fuel : Nat) (s : State)
    (hpre : ∀ e ∈ s.trace, is_vex_entry e = false ∧ is_stm32_init e = false) :
    ∃ pre post, (main_connect env fuel s).2.trace = pre ++ post ∧
      (∀ e ∈ pre, is_vex_entry e = false ∧ is_stm32_init e = false) ∧
      (post = [] ∨ ∃ rest, post = Event.stm32_init s.init_flag :: rest) := by
  have h0 := TraceExt.of_all hpre
  have h1 : TraceExt (fun e => is_vex_entry e = false ∧ is_stm32_init e = false) []
      (s.log [Event.serial_setup s.baudRate 8 serial_parity_t.SERIAL_PARITY_EVEN 1]).trace :=
    h0.log (by simp [is_vex_entry, is_stm32_init])
  unfold main_connect
  dsimp only
  split
  · exact ⟨_, [], (List.append_nil _).symm,
      ((h1.log (by simp [is_vex_entry, is_stm32_init])).trans
        ((cleanup_return_ext _ (-1)).mono startup_event_calm)).all, Or.inl rfl⟩
  · obtain ⟨rest, hrest⟩ := main_init_ext env fuel
      ((s.log [Event.serial_setup s.baudRate 8 serial_parity_t.SERIAL_PARITY_EVEN 1]).log
        [Event.usleep 100000, Event.serial_set_rts 0, Event.usleep 100000])
    exact ⟨_, _, hrest, (h1.log (by simp [is_vex_entry, is_stm32_init])).all,
      Or.inr ⟨rest, rfl⟩⟩

/-! ## Lemmas on the handshake -/

theorem status_queries_append (t u : Trace) :
    status_queries (t ++ u) = status_queries t + status_queries u := by
  simp [status_queries, serial_written, List.filterMap_append]

theorem vex_sys_status_cmd_spec (env : Env) (s : State) (hserial : s.serial = true) :
    status_queries (vex_sys_status_cmd env s).2.trace = status_queries s.trace + 1 ∧
      TraceExt (fun e => is_entry_action e = false) s.trace (vex_sys_status_cmd env s).2.trace ∧
      (vex_sys_status_cmd env s).2.serial = s.serial ∧
      (vex_sys_status_cmd env s).2.p_st = s.p_st ∧
      (vex_sys_status_cmd env s).2.parser = s.parser := by
  unfold vex_sys_status_cmd
  rw [if_pos hserial]
  dsimp only
  cases hq : s.quietmode <;>
    cases hw : env.serial_write _ [0xC9, 0x36, 0xB8, 0x47, 0x21] <;>
    simp only [Bool.false_eq_true, if_false, if_true] <;>
    (try split) <;> (try split) <;>
    (refine ⟨?_, ?_, rfl, rfl, rfl⟩
     · simp [State.log, status_queries_append, status_queries, serial_written]
     · simp only [State.log]
       first
        | exact (((TraceExt.refl _ s.trace).append (by simp [is_entry_action])).append
            (by simp [is_entry_action])).append (by simp [is_entry_action])
        | exact ((((TraceExt.refl _ s.trace).append (by simp [is_entry_action])).append
            (by simp [is_entry_action])).append (by simp [is_entry_action])).append
            (by simp [is_entry_action])
        | exact (((((TraceExt.refl _ s.trace).append (by simp [is_entry_action])).append
            (by simp [is_entry_action])).append (by simp [is_entry_action])).append
            (by simp [is_entry_action])).append (by simp [is_entry_action])
        | exact ((TraceExt.refl _ s.trace).append (by simp [is_entry_action])).append
            (by simp [is_entry_action]))

theorem vex_enter_strategy_queries (env : Env) (s : State) :
    status_queries (vex_enter_strategy env s).trace = status_queries s.trace := by
  unfold vex_enter_strategy vex_enter_user_program_rts vex_enter_user_program_cmd
  cases hser : s.serial <;> cases hq : s.quietmode <;>
    cases hset : env.serial_setup s.trace serial_baud_t.SERIAL_BAUD_9600 8
      serial_parity_t.SERIAL_PARITY_NONE 1 <;>
    by_cases h2 : s.vex_user_program = 2 <;> by_cases h0 : s.vex_user_program = 0 <;>
    simp [State.log, hser, hq, hset, h2, h0, status_queries_append, status_queries,
      serial_written]

theorem detect_loop_fields (env : Env) :
    ∀ (n : Nat) (s : State), (detect_loop env n s).2.p_st = s.p_st ∧
      (detect_loop env n s).2.parser = s.parser := by
  intro n
  induction n with
  | zero => intro s; exact ⟨rfl, rfl⟩
  | succ n ih =>
    intro s
    simp only [detect_loop]
    split
    · split
      · exact ⟨rfl, rfl⟩
      · split
        · split
          · split
            · exact ⟨rfl, rfl⟩
            · exact ⟨rfl, rfl⟩
          · exact ⟨rfl, rfl⟩
        · exact ih _
    · exact ih _

theorem vex_detect_mode_fields (env : Env) (s : State) :
    (vex_detect_mode env s).2.p_st = s.p_st ∧ (vex_detect_mode env s).2.parser = s.parser := by
  unfold vex_detect_mode
  dsimp only
  split
  · split
    · have h := cleanup_return_fields
        ((s.log [Event.usleep 100000]).log
          [Event.serial_setup (s.log [Event.usleep 100000]).baudRate 8
            serial_parity_t.SERIAL_PARITY_EVEN 1] |>.log [Event.print Msg.perror]) (-1)
      exact ⟨h.2.2.1, h.2.2.2⟩
    · exact detect_loop_fields env 5 _
  · exact ⟨rfl, rfl⟩

theorem detect_loop_skip (env : Env) (base : Trace) :
    ∀ (j n : Nat) (s : State), s.trace = base →
      (∀ i, i < j → no_usable_reply (probe_reply env base i)) →
      detect_loop env (j + n) s = detect_loop env n { s with trace := probe_trace env base j } := by
  intro j
  induction j with
  | zero =>
    intro n s hs _
    subst hs
    simp [probe_trace]
  | succ j ih =>
    intro n s hs hprev
    have hstep : j + 1 + n = j + (n + 1) := by omega
    rw [hstep, ih (n + 1) s hs (fun i hi => hprev i (by omega))]
    have hj := hprev j (by omega)
    unfold no_usable_reply probe_reply at hj
    simp only [detect_loop, State.log]
    cases hr : env.serial_read (probe_trace env base j ++ [Event.serial_write [0x7F]]) 1 with
    | none => simp [probe_trace, hr]
    | some rep =>
      obtain ⟨h79, h1f⟩ := hj rep hr
      simp [probe_trace, hr, h79, h1f]

theorem startup_ext_queries {t u : Trace}
    (h : TraceExt (fun e => is_startup_event e = true) t u) :
    status_queries u = status_queries t := by
  obtain ⟨t', ht', hall⟩ := h
  rw [ht', status_queries_append]
  have : serial_written t' = [] := by
    unfold serial_written
    rw [List.filterMap_eq_nil_iff]
    intro e he
    have := hall e he
    cases e <;> simp_all [is_startup_event]
  simp [status_queries, this]

theorem vex_initialize_eq (env : Env) (s : State) (hserial : s.serial = true)
    (hsetup : env.serial_setup (s.trace ++ [Event.usleep 100000]) s.baudRate 8
      serial_parity_t.SERIAL_PARITY_NONE 1 = true) :
    vex_initialize env s =
      if (status_first env s).1 ≠ 0 then
        (Outcome.returned 1, vex_enter_strategy env (status_first env s).2)
      else if (status_second env s).1 ≠ 0 then
        (Outcome.returned 1, vex_enter_strategy env (status_second env s).2)
      else
        (Outcome.returned (-1), (status_second env s).2.log [Event.print Msg.no_vex_system]) := by
  have hsetup' : env.serial_setup (s.log [Event.usleep 100000]).trace
      (s.log [Event.usleep 100000]).baudRate 8 serial_parity_t.SERIAL_PARITY_NONE 1 = true :=
    hsetup
  have hser' : (s.log [Event.usleep 100000]).serial = true := hserial
  have hbase : ((s.log [Event.usleep 100000]).log
      [Event.serial_setup (s.log [Event.usleep 100000]).baudRate 8
        serial_parity_t.SERIAL_PARITY_NONE 1]).log
      [Event.usleep 100000, Event.serial_write [0x00, 0x00, 0x00, 0x00],
        Event.usleep 100000] = init_base s := by
    simp [init_base, State.log]
  unfold vex_initialize
  dsimp only
  rw [if_pos hser', if_neg (by rw [hsetup']; simp), hbase]
  unfold status_second status_first
  by_cases h1 : (vex_sys_status_cmd env (init_base s)).1 = 0
  · by_cases h2 : (vex_sys_status_cmd env
        ((vex_sys_status_cmd env (init_base s)).2.log [Event.usleep 100000])).1 = 0
    · simp [h1, h2]
    · simp [h1, h2]
  · simp [h1]

theorem vex_initialize_queries (env : Env) (s : State) (hserial : s.serial = true)
    (hsetup : env.serial_setup (s.trace ++ [Event.usleep 100000]) s.baudRate 8
      serial_parity_t.SERIAL_PARITY_NONE 1 = true) :
    status_queries ( vex_initialize env s).2.trace =
        status_queries s.trace + (if (status_first env s).1 = 0 then 2 else 1) ∧
      ((status_first env s).1 = 0 → (status_second env s).1 = 0 →
        ∃ t, ( vex_initialize env s).2.trace = s.trace ++ t ∧
          ∀ e ∈ t, is_entry_action e = false) ∧
      (status_second env s).2.p_st = s.p_st ∧ (status_second env s).2.parser = s.parser := by
  have hb : (init_base s).serial = true := hserial
  obtain ⟨hq1, he1, hs1, hp1, hk1⟩ := vex_sys_status_cmd_spec env (init_base s) hb
  have hb2 : ((status_first env s).2.log [Event.usleep 100000]).serial = true := by
    show (vex_sys_status_cmd env (init_base s)).2.serial = true
    rw [hs1]; exact hb
  obtain ⟨hq2, he2, hs2, hp2, hk2⟩ := vex_sys_status_cmd_spec env _ hb2
  have hbase_tr : (init_base s).trace = s.trace ++ [Event.usleep 100000,
      Event.serial_setup s.baudRate 8 serial_parity_t.SERIAL_PARITY_NONE 1,
      Event.usleep 100000, Event.serial_write [0x00, 0x00, 0x00, 0x00],
      Event.usleep 100000] := rfl
  have hbase_q : status_queries (init_base s).trace = status_queries s.trace := by
    rw [hbase_tr, status_queries_append]
    simp [status_queries, serial_written]
  have hbase_e : TraceExt (fun e => is_entry_action e = false) s.trace (init_base s).trace := by
    rw [hbase_tr]
    exact (TraceExt.refl _ s.trace).append (by simp [is_entry_action])
  have hq1' : status_queries (status_first env s).2.trace = status_queries s.trace + 1 := by
    rw [← hbase_q]; exact hq1
  have hq2' : status_queries (status_second env s).2.trace = status_queries s.trace + 2 := by
    have : status_queries (status_second env s).2.trace =
        status_queries ((status_first env s).2.log [Event.usleep 100000]).trace + 1 := hq2
    rw [this]
    simp only [State.log, status_queries_append, hq1']
    simp [status_queries, serial_written]
  rw [vex_initialize_eq env s hserial hsetup]
  refine ⟨?_, ?_, ?_, ?_⟩
  · by_cases h1 : (status_first env s).1 = 0
    · by_cases h2 : (status_second env s).1 = 0
      · simp only [h1, h2, ne_eq, not_true_eq_false, if_false, if_true, State.log,
          status_queries_append, hq2']
        simp [status_queries, serial_written]
      · simp only [h1, h2, ne_eq, not_true_eq_false, not_false_eq_true, if_false, if_true,
          vex_enter_strategy_queries, hq2']
    · simp only [h1, ne_eq, not_false_eq_true, if_true, if_false, vex_enter_strategy_queries,
        hq1']
  · intro h1 h2
    simp only [h1, h2, ne_eq, not_true_eq_false, if_false]
    exact ((hbase_e.trans he1).log (l := [Event.usleep 100000])
      (by simp [is_entry_action]) |>.trans he2).log (by simp [is_entry_action])
  · show (vex_sys_status_cmd env _).2.p_st = s.p_st
    rw [hp2]
    show (vex_sys_status_cmd env (init_base s)).2.p_st = s.p_st
    rw [hp1]; rfl
  · show (vex_sys_status_cmd env _).2.parser = s.parser
    rw [hk2]
    show (vex_sys_status_cmd env (init_base s)).2.parser = s.parser
    rw [hk1]; rfl

theorem vex_initialize_queries_le (env : Env) (s : State) :
    status_queries ( vex_initialize env s).2.trace ≤ status_queries s.trace + 2 := by
  by_cases hserial : s.serial = true
  · by_cases hsetup : env.serial_setup (s.trace ++ [Event.usleep 100000]) s.baudRate 8
        serial_parity_t.SERIAL_PARITY_NONE 1 = true
    · rw [(vex_initialize_queries env s hserial hsetup).1]
      split <;> omega
    · have hsetup' : env.serial_setup (s.log [Event.usleep 100000]).trace
          (s.log [Event.usleep 100000]).baudRate 8 serial_parity_t.SERIAL_PARITY_NONE 1 =
          false := by
        simpa [State.log] using hsetup
      have hser' : (s.log [Event.usleep 100000]).serial = true := hserial
      unfold vex_initialize
      dsimp only
      rw [if_pos hser', if_pos hsetup']
      have h := startup_ext_queries (cleanup_return_ext
        (((s.log [Event.usleep 100000]).log
          [Event.serial_setup (s.log [Event.usleep 100000]).baudRate 8
            serial_parity_t.SERIAL_PARITY_NONE 1]).log [Event.print Msg.perror]) (-1))
      rw [h]
      simp [State.log, status_queries_append, status_queries, serial_written]
  · have hser' : ¬ (s.log [Event.usleep 100000]).serial = true := hserial
    unfold vex_initialize
    dsimp only
    rw [if_neg hser']
    simp [State.log, status_queries_append, status_queries, serial_written]

/-! ## The claims on `write_flash` and `read_flash` -/

/-- C1, evaluated at a failing input: with the default retry budget 10 and
verification enabled, a two-byte chunk `12 34` that the device reads back as
`00 00` is written once, is not written again, no mismatch is reported and
`write_flash` returns success. -/
theorem C1_mismatch_neither_retried_nor_reported :
    (write_flash (env_const 2 (fun i => if i = 0 then 0x12 else 0x34) (fun _ => 0)) 2
        state_write_verify).1 = Outcome.returned 1 ∧
      (write_flash (env_const 2 (fun i => if i = 0 then 0x12 else 0x34) (fun _ => 0)) 2
        state_write_verify).2.trace =
        [Event.print Msg.newline,
          Event.parser_size parser_kind.PARSER_BINARY,
          Event.stm32_erase_memory 255,
          Event.show_progress 0 2,
          Event.transfer_timer 0 0,
          Event.parser_read parser_kind.PARSER_BINARY 2 (some [0x12, 0x34]),
          Event.stm32_write_memory 0x08000000 [0x12, 0x34],
          Event.stm32_read_memory 0x08000000 2 (some [0, 0]),
          Event.show_progress 2 2,
          Event.transfer_timer 1 2,
          Event.print Msg.verify_ok] := by
  decide

/-- C2, evaluated at a failing input: with verification enabled and retry
budget 3, `write_flash` returns success and prints "Verify OK" although the
only read-back of the three-byte chunk `01 02 03` was `01 02 FF`. -/
theorem C2_success_with_unequal_readback :
    (write_flash (env_const 3 (fun i => i + 1) (fun i => if i = 2 then 0xFF else i + 1)) 2
        { state_write_verify with retry := 3 }).1 = Outcome.returned 1 ∧
      Event.print Msg.verify_ok ∈
        (write_flash (env_const 3 (fun i => i + 1) (fun i => if i = 2 then 0xFF else i + 1)) 2
          { state_write_verify with retry := 3 }).2.trace ∧
      write_commands
        (write_flash (env_const 3 (fun i => i + 1) (fun i => if i = 2 then 0xFF else i + 1)) 2
          { state_write_verify with retry := 3 }).2.trace = [(0x08000000, 3)] ∧
      read_replies
        (write_flash (env_const 3 (fun i => i + 1) (fun i => if i = 2 then 0xFF else i + 1)) 2
          { state_write_verify with retry := 3 }).2.trace = [some [1, 2, 0xFF]] ∧
      Event.stm32_write_memory 0x08000000 [1, 2, 3] ∈
        (write_flash (env_const 3 (fun i => i + 1) (fun i => if i = 2 then 0xFF else i + 1)) 2
          { state_write_verify with retry := 3 }).2.trace := by
  decide

/-- C3: `write_flash` rejects an image exactly when its size exceeds the flash
capacity, the `uint32_t` difference `fl_end - fl_start`.  A larger image makes
it return -1 after the size query alone, with no erase, write or read command;
an image that fits, also one of exactly the capacity, passes the check and the
erase command is issued. -/
theorem C3_size_check (env : Env) (fuel : Nat) (s : State) (k : parser_kind) (stm : stm32_t)
    (hwr : s.wr = true) (hk : s.parser = some k) (hstm : s.stm = some stm) :
    (env.parser_size (s.trace ++ [Event.print Msg.newline]) k % U32 >
        sub32 stm.dev.fl_end stm.dev.fl_start →
      (write_flash env fuel s).1 = Outcome.returned (-1) ∧
        (write_flash env fuel s).2.trace =
          s.trace ++ [Event.print Msg.newline, Event.parser_size k,
            Event.print Msg.file_too_large]) ∧
    (env.parser_size (s.trace ++ [Event.print Msg.newline]) k % U32 ≤
        sub32 stm.dev.fl_end stm.dev.fl_start →
      ∃ t, (write_flash env fuel s).2.trace =
        s.trace ++ [Event.print Msg.newline, Event.parser_size k,
          Event.stm32_erase_memory s.npages] ++ t) := by
  constructor
  · intro h
    simp [write_flash, hwr, hk, hstm, h]
  · intro h
    have h' : ¬ env.parser_size (s.trace ++ [Event.print Msg.newline]) k % U32 >
        sub32 stm.dev.fl_end stm.dev.fl_start := Nat.not_lt.2 h
    obtain ⟨t', ht, _⟩ := write_loop_ext env k stm.dev s.verify s.retry s.quietmode
      (env.parser_size (s.trace ++ [Event.print Msg.newline]) k % U32) fuel stm.dev.fl_start 0
      (s.trace ++ [Event.print Msg.newline] ++ [Event.parser_size k] ++
        [Event.stm32_erase_memory s.npages] ++
        [Event.show_progress 0 (env.parser_size (s.trace ++ [Event.print Msg.newline]) k % U32),
          Event.transfer_timer 0 0])
    refine ⟨[Event.show_progress 0
      (env.parser_size (s.trace ++ [Event.print Msg.newline]) k % U32),
      Event.transfer_timer 0 0] ++ t', ?_⟩
    simp only [write_flash, hwr, hk, hstm, h', if_true, if_false]
    rw [ht]
    simp

/-- C3 at concrete inputs on a device with 1024 bytes of flash: an image of
1025 bytes is refused with -1, an image of exactly 1024 bytes reaches the
erase command. -/
theorem C3_size_check_witness :
    (write_flash (env_const 1025 (fun _ => 0) (fun _ => 0)) 8 state_write_verify).1 =
        Outcome.returned (-1) ∧
      ∃ t, (write_flash (env_const 1024 (fun _ => 0) (fun _ => 0)) 8 state_write_verify).2.trace =
        state_write_verify.trace ++ [Event.print Msg.newline,
          Event.parser_size parser_kind.PARSER_BINARY,
          Event.stm32_erase_memory state_write_verify.npages] ++ t :=
  ⟨((C3_size_check (env_const 1025 (fun _ => 0) (fun _ => 0)) 8 state_write_verify
      parser_kind.PARSER_BINARY { dev := { fl_start := 0x08000000, fl_end := 0x08000400 } }
      rfl rfl rfl).1 (by decide)).1,
    (C3_size_check (env_const 1024 (fun _ => 0) (fun _ => 0)) 8 state_write_verify
      parser_kind.PARSER_BINARY { dev := { fl_start := 0x08000000, fl_end := 0x08000400 } }
      rfl rfl rfl).2 (by decide)⟩

set_option maxRecDepth 1000000 in
/-- C4 as stated fails when verification is enabled with retry budget 0: the
parser returns the requested length and the device accepts every command, but
it reads back `00` where `01` was written, and `write_flash` returns -1 after
one write command of 256 bytes instead of the two chunks of a 300-byte image. -/
theorem C4_counterexample_verify_abort :
    (∀ t n, ∃ d, (env_const 300 (fun _ => 1) (fun _ => 0)).parser_read t
        parser_kind.PARSER_BINARY n = some d ∧ d.length = n) ∧
      (∀ t a d, (env_const 300 (fun _ => 1) (fun _ => 0)).stm32_write_memory t a d = true) ∧
      (∀ t a n, ((env_const 300 (fun _ => 1) (fun _ => 0)).stm32_read_memory t a n).isSome
        = true) ∧
      (0 < 300 ∧ 300 ≤ 0x08000400 - 0x08000000) ∧
      (write_flash (env_const 300 (fun _ => 1) (fun _ => 0)) 8
        { state_write_verify with retry := 0 }).1 = Outcome.returned (-1) ∧
      write_commands (write_flash (env_const 300 (fun _ => 1) (fun _ => 0)) 8
        { state_write_verify with retry := 0 }).2.trace = [(0x08000000, 256)] ∧
      write_commands (write_flash (env_const 300 (fun _ => 1) (fun _ => 0)) 8
        { state_write_verify with retry := 0 }).2.trace ≠ expected_chunks 0x08000000 300 := by
  refine ⟨fun t n => ⟨_, rfl, by simp [bytes]⟩, fun _ _ _ => rfl, fun _ _ _ => rfl,
    by decide, by decide, by decide, by decide⟩

/-- C4, amended: for an image of `size` bytes with `0 < size <= fl_end - fl_start`,
a parser that returns the requested length, a device that accepts every write
command and, when verification is enabled, reads back the bytes just written,
`write_flash` returns 1 and issues exactly the write commands of
`expected_chunks`: `ceil(size/256)` commands, the `i`-th at `fl_start + 256*i`,
each of 256 bytes except the last, which takes the rest; the lengths sum to
`size`. -/
theorem C4_write_chunks (env : Env) (fuel : Nat) (s : State) (k : parser_kind)
    (stm : stm32_t) (size : Nat)
    (hwr : s.wr = true) (hk : s.parser = some k) (hstm : s.stm = some stm)
    (hend : stm.dev.fl_end < U32)
    (hsize : env.parser_size (s.trace ++ [Event.print Msg.newline]) k = size)
    (hpos : 0 < size) (hfit : size ≤ stm.dev.fl_end - stm.dev.fl_start)
    (hlen : ∀ t n, ∃ d, env.parser_read t k n = some d ∧ d.length = n)
    (hw : ∀ t a d, env.stm32_write_memory t a d = true)
    (hv : s.verify = true → ∀ t a d, ∃ c,
      env.stm32_read_memory (t ++ [Event.stm32_write_memory a d]) a d.length = some c ∧
      ∀ i, i < d.length → d.getD i 0 = c i)
    (hfuel : (size + 255) / 256 < fuel) :
    (write_flash env fuel s).1 = Outcome.returned 1 ∧
      write_commands (write_flash env fuel s).2.trace =
        write_commands s.trace ++ expected_chunks stm.dev.fl_start size ∧
      (expected_chunks stm.dev.fl_start size).length = (size + 255) / 256 ∧
      ((expected_chunks stm.dev.fl_start size).map Prod.snd).sum = size := by
  have hmod : size % U32 = size := Nat.mod_eq_of_lt (by unfold U32 at *; omega)
  have hcap : sub32 stm.dev.fl_end stm.dev.fl_start = stm.dev.fl_end - stm.dev.fl_start :=
    sub32_of_le (by omega) hend
  have hnot : ¬ size > sub32 stm.dev.fl_end stm.dev.fl_start := by rw [hcap]; omega
  have hloop := write_loop_good env k stm.dev s.verify s.retry s.quietmode size hend hlen hw hv
    fuel stm.dev.fl_start 0
    (s.trace ++ [Event.print Msg.newline] ++ [Event.parser_size k] ++
      [Event.stm32_erase_memory s.npages] ++
      [Event.show_progress 0 size, Event.transfer_timer 0 0])
    (Nat.zero_le _) (by omega) (by simpa using hfuel)
  simp only [write_flash, hwr, hk, hstm, hsize, hmod, hnot, if_true, if_false]
  refine ⟨hloop.1, ?_, by simp [expected_chunks], expected_chunks_sum size _⟩
  rw [hloop.2]
  simp [write_commands_append, write_commands]

/-- C4 at the 300-byte image of scenario A, on an echoing device with
verification enabled: two write commands, 256 bytes at `0x08000000` and 44
bytes at `0x08000100`. -/
theorem C4_write_chunks_witness :
    (write_flash (env_echo 300 (fun _ => 1)) 8 state_write_verify).1 = Outcome.returned 1 ∧
      write_commands (write_flash (env_echo 300 (fun _ => 1)) 8 state_write_verify).2.trace =
        [(0x08000000, 256), (0x08000100, 44)] :=
  have h := C4_write_chunks (env_echo 300 (fun _ => 1)) 8 state_write_verify
    parser_kind.PARSER_BINARY { dev := { fl_start := 0x08000000, fl_end := 0x08000400 } } 300
    rfl rfl rfl (by decide) rfl (by decide) (by decide)
    (fun t n => ⟨_, rfl, by simp [bytes]⟩) (fun _ _ _ => rfl)
    (fun _ t a d => ⟨fun i => d.getD i 0, by simp [env_echo, last_written_snoc], fun _ _ => rfl⟩)
    (by decide)
  ⟨h.1, h.2.1.trans (by decide)⟩

/-- C5: every `stm32_read_memory` and `stm32_write_memory` call that
`read_flash` and `write_flash` issue moves between 1 and 256 bytes and lies in
the flash, `fl_start <= addr` and `addr + len <= fl_end`, for every device
behaviour and every amount of fuel, provided the parser returns the requested
length whenever it succeeds.  The bound `fl_end < 2^32` is the type of the
field; `fl_start <= fl_end` is not needed. -/
theorem C5_memory_commands_in_flash (env : Env) (fuel : Nat) (s : State) (k : parser_kind)
    (stm : stm32_t) (hk : s.parser = some k) (hstm : s.stm = some stm)
    (hend : stm.dev.fl_end < U32)
    (hlen : ∀ t n d, env.parser_read t k n = some d → d.length = n) :
    (∃ t, (read_flash env fuel s).2.trace = s.trace ++ t ∧
        ∀ e ∈ t, chunk_in_flash stm.dev e) ∧
      (∃ t, (write_flash env fuel s).2.trace = s.trace ++ t ∧
        ∀ e ∈ t, chunk_in_flash stm.dev e) := by
  constructor
  · show TraceExt (chunk_in_flash stm.dev) s.trace (read_flash env fuel s).2.trace
    simp only [read_flash, hk, hstm]
    split
    · split
      · split
        · exact (((TraceExt.refl _ _).snoc
            (show chunk_in_flash stm.dev (Event.print _) from trivial)).snoc
            (show chunk_in_flash stm.dev (Event.parser_open _ _ _) from trivial)).snoc
            (show chunk_in_flash stm.dev (Event.print _) from trivial) |>.snoc
            (show chunk_in_flash stm.dev (Event.print _) from trivial)
        · exact (((TraceExt.refl _ _).snoc
            (show chunk_in_flash stm.dev (Event.print _) from trivial)).snoc
            (show chunk_in_flash stm.dev (Event.parser_open _ _ _) from trivial)).snoc
            (show chunk_in_flash stm.dev (Event.print _) from trivial)
      · refine TraceExt.trans ?_
          (read_loop_in_flash env k stm.dev s.quietmode hend fuel stm.dev.fl_start _
            (Nat.le_refl _))
        refine (((TraceExt.refl _ _).snoc
          (show chunk_in_flash stm.dev (Event.print _) from trivial)).snoc
          (show chunk_in_flash stm.dev (Event.parser_open _ _ _) from trivial)).append ?_
        intro e he
        simp only [List.mem_cons, List.mem_singleton, List.not_mem_nil, or_false] at he
        rcases he with rfl | rfl <;> trivial
    · exact TraceExt.refl _ _
  · show TraceExt (chunk_in_flash stm.dev) s.trace (write_flash env fuel s).2.trace
    simp only [write_flash, hk, hstm]
    split
    · split
      · exact (((TraceExt.refl _ _).snoc
          (show chunk_in_flash stm.dev (Event.print _) from trivial)).snoc
          (show chunk_in_flash stm.dev (Event.parser_size _) from trivial)).snoc
          (show chunk_in_flash stm.dev (Event.print _) from trivial)
      · refine TraceExt.trans ?_
          (write_loop_in_flash env k stm.dev s.verify s.retry s.quietmode _ hend hlen fuel
            stm.dev.fl_start 0 _ (Nat.le_refl _))
        refine ((((TraceExt.refl _ _).snoc
          (show chunk_in_flash stm.dev (Event.print _) from trivial)).snoc
          (show chunk_in_flash stm.dev (Event.parser_size _) from trivial)).snoc
          (show chunk_in_flash stm.dev (Event.stm32_erase_memory _) from trivial)).append ?_
        intro e he
        simp only [List.mem_cons, List.mem_singleton, List.not_mem_nil, or_false] at he
        rcases he with rfl | rfl <;> trivial
    · exact TraceExt.refl _ _

/-- C5 at a concrete input: a 300-byte image on a device with 1024 bytes of
flash at `0x08000000`. -/
theorem C5_memory_commands_in_flash_witness :
    (∃ t, (read_flash (env_const 300 (fun _ => 1) (fun _ => 1)) 8
          { state_write_verify with rd := true }).2.trace =
        ({ state_write_verify with rd := true } : State).trace ++ t ∧
        ∀ e ∈ t, chunk_in_flash { fl_start := 0x08000000, fl_end := 0x08000400 } e) ∧
      (∃ t, (write_flash (env_const 300 (fun _ => 1) (fun _ => 1)) 8
          { state_write_verify with rd := true }).2.trace =
        ({ state_write_verify with rd := true } : State).trace ++ t ∧
        ∀ e ∈ t, chunk_in_flash { fl_start := 0x08000000, fl_end := 0x08000400 } e) :=
  C5_memory_commands_in_flash (env_const 300 (fun _ => 1) (fun _ => 1)) 8
    { state_write_verify with rd := true } parser_kind.PARSER_BINARY
    { dev := { fl_start := 0x08000000, fl_end := 0x08000400 } } rfl rfl (by decide)
    (by
      intro t n d h
      simp only [env_const, Option.some.injEq] at h
      rw [← h]
      simp [bytes])

/-- C7 as stated fails when the line setup of line 281 fails: no reply is ever
received and `init_flag` is 1, but `vex_detect_mode` transmits nothing at all
and returns -1 after `cleanup`. -/
theorem C7_counterexample_setup_fails :
    (∀ t n, env_setup_fails.serial_read t n = none) ∧
      state_handshake.init_flag = 1 ∧
      (vex_detect_mode env_setup_fails state_handshake).1 = Outcome.returned (-1) ∧
      serial_written (vex_detect_mode env_setup_fails state_handshake).2.trace = [] ∧
      serial_written (vex_detect_mode env_setup_fails state_handshake).2.trace ≠
        List.replicate 5 [0x7F] := by
  refine ⟨fun _ _ => rfl, rfl, by decide, by decide, by decide⟩

/-- C7, amended: on an open connection whose line setup succeeds, given that
every `serial_read` fails and `init_flag` is 1, `vex_detect_mode` transmits the
one-byte message `7F` exactly 5 times and nothing else, leaves `init_flag`
unchanged and returns 1. -/
theorem C7_probe_five_times (env : Env) (s : State) (hserial : s.serial = true)
    (hsetup : env.serial_setup (s.trace ++ [Event.usleep 100000]) s.baudRate 8
      serial_parity_t.SERIAL_PARITY_EVEN 1 = true)
    (hread : ∀ t n, env.serial_read t n = none) (hinit : s.init_flag = 1) :
    (vex_detect_mode env s).1 = Outcome.returned 1 ∧
      (vex_detect_mode env s).2.init_flag = s.init_flag ∧
      (vex_detect_mode env s).2.trace = s.trace ++
        [Event.usleep 100000,
          Event.serial_setup s.baudRate 8 serial_parity_t.SERIAL_PARITY_EVEN 1,
          Event.usleep 100000,
          Event.serial_write [0x7F], Event.serial_read 1 none,
          Event.serial_write [0x7F], Event.serial_read 1 none,
          Event.serial_write [0x7F], Event.serial_read 1 none,
          Event.serial_write [0x7F], Event.serial_read 1 none,
          Event.serial_write [0x7F], Event.serial_read 1 none] ∧
      serial_written (vex_detect_mode env s).2.trace =
        serial_written s.trace ++ List.replicate 5 [0x7F] := by
  simp [vex_detect_mode, detect_loop, State.log, hserial, hsetup, hread, hinit, read_reply,
    serial_written, List.filterMap_append, List.replicate]

/-- C7 at a concrete input: a silent line, reached after `-w file dev`. -/
theorem C7_probe_five_times_witness :
    (vex_detect_mode (env_const 0 (fun _ => 0) (fun _ => 0)) state_handshake).1 =
        Outcome.returned 1 ∧
      serial_written
          (vex_detect_mode (env_const 0 (fun _ => 0) (fun _ => 0)) state_handshake).2.trace =
        serial_written state_handshake.trace ++ List.replicate 5 [0x7F] :=
  have h := C7_probe_five_times (env_const 0 (fun _ => 0) (fun _ => 0)) state_handshake
    rfl rfl (fun _ _ => rfl) rfl
  ⟨h.1, h.2.2.2⟩

/-- C8: when `main` reaches the handshake and the reply to the first
auto-baud probe, sent after the line setup of line 281 has succeeded, is the
byte `79`, `vex_detect_mode` sends exactly one `7F`, sets `init_flag` to 0 and
returns 0; `main` continues at line 180 without calling `vex_initialize`, and
no event of the run before the call `stm32_init(serial, 0)` is a switch to
no-parity line settings, a vendor status query, an enter-bootloader command or
an asserted RTS line. -/
theorem C8_ack_skips_entry (env : Env) (code : parser_err_t → Int)
    (gb : Nat → serial_baud_t) (fuel : Nat) (opts : List getopt_t) (args : List String)
    (s : State) (rep : Nat → Nat)
    (hstart : main_startup env code gb opts args = Sum.inr s)
    (hsetup : env.serial_setup (s.trace ++ [Event.usleep 100000]) s.baudRate 8
      serial_parity_t.SERIAL_PARITY_EVEN 1 = true)
    (hreply : env.serial_read (s.trace ++ [Event.usleep 100000,
      Event.serial_setup s.baudRate 8 serial_parity_t.SERIAL_PARITY_EVEN 1,
      Event.usleep 100000, Event.serial_write [0x7F]]) 1 = some rep)
    (hack : rep 0 = 0x79) :
    vex_detect_mode env s = (Outcome.returned 0, { s with
        trace := s.trace ++ [Event.usleep 100000,
          Event.serial_setup s.baudRate 8 serial_parity_t.SERIAL_PARITY_EVEN 1,
          Event.usleep 100000, Event.serial_write [0x7F], Event.serial_read 1 (some [0x79])],
        init_flag := 0 }) ∧
      serial_written (vex_detect_mode env s).2.trace = [[0x7F]] ∧
      main env code gb fuel opts args = main_connect env fuel { s with
        trace := s.trace ++ [Event.usleep 100000,
          Event.serial_setup s.baudRate 8 serial_parity_t.SERIAL_PARITY_EVEN 1,
          Event.usleep 100000, Event.serial_write [0x7F], Event.serial_read 1 (some [0x79])],
        init_flag := 0 } ∧
      ∃ pre post, (main env code gb fuel opts args).2.trace = pre ++ post ∧
        (∀ e ∈ pre, is_vex_entry e = false ∧ is_stm32_init e = false) ∧
        (post = [] ∨ ∃ rest, post = Event.stm32_init 0 :: rest) := by
  obtain ⟨hev, hserial, _, _⟩ := main_startup_spec env code gb opts args s hstart
  have hcalm : ∀ e ∈ s.trace, is_vex_entry e = false ∧ is_stm32_init e = false :=
    fun e he => startup_event_calm e (hev e he)
  have hdet : vex_detect_mode env s = (Outcome.returned 0, { s with
      trace := s.trace ++ [Event.usleep 100000,
        Event.serial_setup s.baudRate 8 serial_parity_t.SERIAL_PARITY_EVEN 1,
        Event.usleep 100000, Event.serial_write [0x7F], Event.serial_read 1 (some [0x79])],
      init_flag := 0 }) := by
    simp [vex_detect_mode, detect_loop, State.log, hserial, hsetup, hreply, hack, read_reply,
      bytes, List.range_succ]
  have hsw : serial_written s.trace = [] := by
    unfold serial_written
    rw [List.filterMap_eq_nil_iff]
    intro e he
    have := hev e he
    cases e <;> simp_all [is_startup_event]
  have hmain : main env code gb fuel opts args = main_connect env fuel { s with
      trace := s.trace ++ [Event.usleep 100000,
        Event.serial_setup s.baudRate 8 serial_parity_t.SERIAL_PARITY_EVEN 1,
        Event.usleep 100000, Event.serial_write [0x7F], Event.serial_read 1 (some [0x79])],
      init_flag := 0 } := by
    simp [main, hstart, main_handshake, hdet]
  refine ⟨hdet, ?_, hmain, ?_⟩
  · rw [hdet]
    simp [serial_written, List.filterMap_append] at hsw ⊢
    exact hsw
  · rw [hmain]
    exact main_connect_before_init env fuel _
      ((TraceExt.append (TraceExt.of_all hcalm) (by simp [is_vex_entry, is_stm32_init])).all)

/-- C8 at a concrete input: the run `-w file dev` on a line that answers the
first probe with `79`. -/
theorem C8_ack_skips_entry_witness :
    serial_written (vex_detect_mode (env_reply 0x79 0) state_started).2.trace = [[0x7F]] ∧
      ∃ pre post, (main (env_reply 0x79 0) (fun _ => 1)
          (fun _ => serial_baud_t.SERIAL_BAUD_115200) 8
          [{ c := 'w', optarg := "file", value := 0 }] ["dev"]).2.trace = pre ++ post ∧
        (∀ e ∈ pre, is_vex_entry e = false ∧ is_stm32_init e = false) ∧
        (post = [] ∨ ∃ rest, post = Event.stm32_init 0 :: rest) :=
  have h := C8_ack_skips_entry (env_reply 0x79 0) (fun _ => 1)
    (fun _ => serial_baud_t.SERIAL_BAUD_115200) 8
    [{ c := 'w', optarg := "file", value := 0 }] ["dev"] state_started (fun _ => 0x79)
    rfl rfl rfl rfl
  ⟨h.2.1, h.2.2.2⟩

/-- C9: when the reply to probe attempt `j` of `vex_detect_mode` has first
byte `1F`, the line setup having succeeded and the attempts before it having
had no usable reply, so that attempt `j` is made,
`vex_detect_mode` sends the status probe `00 FF`, reads a 15-byte reply and
ends, with no further auto-baud byte.  If that read succeeds with first byte
`79` it clears `init_flag` and returns 0; otherwise it leaves `init_flag`
unchanged and returns it. -/
theorem C9_nack_status_probe (env : Env) (s : State) (j : Nat) (rep : Nat → Nat)
    (hserial : s.serial = true)
    (hsetup : env.serial_setup (s.trace ++ [Event.usleep 100000]) s.baudRate 8
      serial_parity_t.SERIAL_PARITY_EVEN 1 = true)
    (hj : j < 5)
    (hprev : ∀ i, i < j → no_usable_reply (probe_reply env (detect_base s) i))
    (hnack : probe_reply env (detect_base s) j = some rep) (h1f : rep 0 = 0x1F) :
    (vex_detect_mode env s).2.trace =
        probe_trace env (detect_base s) j ++
          [Event.serial_write [0x7F], Event.serial_read 1 (some [0x1F]),
            Event.serial_write [0x00, 0xFF],
            Event.serial_read 15 (read_reply (env.serial_read
              (probe_trace env (detect_base s) j ++
                [Event.serial_write [0x7F], Event.serial_read 1 (some [0x1F]),
                  Event.serial_write [0x00, 0xFF]]) 15) 15)] ∧
      ((∃ rep2, env.serial_read
            (probe_trace env (detect_base s) j ++
              [Event.serial_write [0x7F], Event.serial_read 1 (some [0x1F]),
                Event.serial_write [0x00, 0xFF]]) 15 = some rep2 ∧ rep2 0 = 0x79) →
        (vex_detect_mode env s).1 = Outcome.returned 0 ∧
          (vex_detect_mode env s).2.init_flag = 0) ∧
      ((¬ ∃ rep2, env.serial_read
            (probe_trace env (detect_base s) j ++
              [Event.serial_write [0x7F], Event.serial_read 1 (some [0x1F]),
                Event.serial_write [0x00, 0xFF]]) 15 = some rep2 ∧ rep2 0 = 0x79) →
        (vex_detect_mode env s).1 = Outcome.returned s.init_flag ∧
          (vex_detect_mode env s).2.init_flag = s.init_flag) := by
  obtain ⟨n, hn⟩ : ∃ n, 5 = j + (n + 1) := ⟨4 - j, by omega⟩
  have hloop := detect_loop_skip env (detect_base s) j (n + 1)
    { s with trace := detect_base s } rfl hprev
  have hdet : vex_detect_mode env s = detect_loop env 5 { s with trace := detect_base s } := by
    simp [vex_detect_mode, State.log, detect_base, hserial, hsetup]
  unfold probe_reply at hnack
  rw [hdet, hn, hloop]
  cases h15 : env.serial_read
      (probe_trace env (detect_base s) j ++
        [Event.serial_write [0x7F], Event.serial_read 1 (some [0x1F]),
          Event.serial_write [0x00, 0xFF]]) 15 with
  | none =>
    simp [detect_loop, State.log, hnack, h1f, h15, read_reply, bytes, List.range_succ]
  | some rep2 =>
    by_cases h79 : rep2 0 = 0x79
    · simp [detect_loop, State.log, hnack, h1f, h15, h79, read_reply, bytes, List.range_succ]
    · simp [detect_loop, State.log, hnack, h1f, h15, h79, read_reply, bytes, List.range_succ]

/-- C9 at a concrete input: the first probe is answered `1F`, the status probe
`79`. -/
theorem C9_nack_status_probe_witness :
    (vex_detect_mode (env_reply 0x1F 0x79) state_handshake).1 = Outcome.returned 0 ∧
      (vex_detect_mode (env_reply 0x1F 0x79) state_handshake).2.init_flag = 0 :=
  (C9_nack_status_probe (env_reply 0x1F 0x79) state_handshake 0 (fun _ => 0x1F) rfl rfl
    (by decide) (fun i hi => absurd hi (Nat.not_lt_zero i)) rfl rfl).2.1
    ⟨fun _ => 0x79, rfl, rfl⟩

/-- C10: `vex_initialize` never issues the vendor status query `C9 36 B8 47 21`
more than twice.  Once it has set up the line, it issues the query once if the
first attempt succeeds and twice if it fails.  If either attempt succeeds it
runs the configured entry strategy and returns 1.  If both fail it returns -1,
having sent no enter-bootloader command and not touched the RTS line, and
`main`, which called it because `vex_detect_mode` returned non-zero, returns
-1. -/
theorem C10_status_query_retry (env : Env) (s : State) :
    status_queries ( vex_initialize env s).2.trace ≤ status_queries s.trace + 2 ∧
      (s.serial = true →
        env.serial_setup (s.trace ++ [Event.usleep 100000]) s.baudRate 8
          serial_parity_t.SERIAL_PARITY_NONE 1 = true →
        status_queries ( vex_initialize env s).2.trace =
            status_queries s.trace + (if (status_first env s).1 = 0 then 2 else 1) ∧
          ((status_first env s).1 ≠ 0 →
            vex_initialize env s =
              (Outcome.returned 1, vex_enter_strategy env (status_first env s).2)) ∧
          ((status_first env s).1 = 0 → (status_second env s).1 ≠ 0 →
            vex_initialize env s =
              (Outcome.returned 1, vex_enter_strategy env (status_second env s).2)) ∧
          ((status_first env s).1 = 0 → (status_second env s).1 = 0 →
            ( vex_initialize env s).1 = Outcome.returned (-1) ∧
              (∃ t, ( vex_initialize env s).2.trace = s.trace ++ t ∧
                ∀ e ∈ t, is_entry_action e = false) ∧
              ∀ (code : parser_err_t → Int) (gb : Nat → serial_baud_t) (fuel : Nat)
                (opts : List getopt_t) (args : List String) (s0 : State) (v : Int),
                main_startup env code gb opts args = Sum.inr s0 →
                vex_detect_mode env s0 = (Outcome.returned v, s) → v ≠ 0 →
                (main env code gb fuel opts args).1 = Outcome.returned (-1))) := by
  refine ⟨vex_initialize_queries_le env s, ?_⟩
  intro hserial hsetup
  obtain ⟨hq, hquiet, hp, hk⟩ := vex_initialize_queries env s hserial hsetup
  have heq := vex_initialize_eq env s hserial hsetup
  refine ⟨hq, ?_, ?_, ?_⟩
  · intro h1
    rw [heq, if_pos h1]
  · intro h1 h2
    rw [heq, if_neg (by simp [h1]), if_pos h2]
  · intro h1 h2
    have hfail : vex_initialize env s = (Outcome.returned (-1),
        (status_second env s).2.log [Event.print Msg.no_vex_system]) := by
      rw [heq, if_neg (by simp [h1]), if_neg (by simp [h2])]
    refine ⟨by rw [hfail], hquiet h1 h2, ?_⟩
    intro code gb fuel opts args s0 v hstart hdet hv
    obtain ⟨_, _, _, hinv⟩ := main_startup_spec env code gb opts args s0 hstart
    have hf := vex_detect_mode_fields env s0
    rw [hdet] at hf
    have hne : ((-1 : Int) ≠ 1) := by decide
    simp only [main, hstart, main_handshake, hdet, hv, ne_eq, not_false_eq_true, if_true,
      hfail, hne]
    apply cleanup_return_ok
    show (status_second env s).2.p_st = true → (status_second env s).2.parser.isSome = true
    rw [hp, hk, hf.1, hf.2]
    exact hinv

/-- C10 at a concrete input: a silent line, on which both status queries
fail. -/
theorem C10_status_query_retry_witness :
    ( vex_initialize (env_const 0 (fun _ => 0) (fun _ => 0)) state_handshake).1 =
      Outcome.returned (-1) :=
  (((C10_status_query_retry (env_const 0 (fun _ => 0) (fun _ => 0)) state_handshake).2
    rfl rfl).2.2.2 (by decide) (by decide)).1

/-! ## Lemmas on the entry strategy and on the retry counter -/

theorem option_case_strategy (gb : Nat → serial_baud_t) (o : getopt_t) (s : State)
    (h0 : o.c ≠ '0') (h2 : o.c ≠ '2') (hs : s.vex_user_program = 1) :
    (option_case gb o s).2.vex_user_program = 1 := by
  unfold option_case
  by_cases h : o.c = 'X'
  · rw [if_pos h]
    split
    · rfl
    · exact hs
  rw [if_neg h]
  clear h
  by_cases h : o.c = '0'
  · rw [if_pos h]
    exact absurd h h0
  rw [if_neg h]
  clear h
  by_cases h : o.c = '1'
  · rw [if_pos h]
  rw [if_neg h]
  clear h
  by_cases h : o.c = '2'
  · rw [if_pos h]
    exact absurd h h2
  rw [if_neg h]
  clear h
  by_cases h : o.c = 'q'
  · rw [if_pos h]
    exact hs
  rw [if_neg h]
  clear h
  by_cases h : o.c = 'b'
  · rw [if_pos h]
    split
    · exact hs
    · exact hs
  rw [if_neg h]
  clear h
  by_cases h : o.c = 'r' ∨ o.c = 'w'
  · rw [if_pos h]
    dsimp only
    split
    · exact hs
    · exact hs
  rw [if_neg h]
  clear h
  by_cases h : o.c = 'e'
  · rw [if_pos h]
    dsimp only
    split
    · exact hs
    · exact hs
  rw [if_neg h]
  clear h
  by_cases h : o.c = 'u'
  · rw [if_pos h]
    dsimp only
    split
    · exact hs
    · exact hs
  rw [if_neg h]
  clear h
  by_cases h : o.c = 'v'
  · rw [if_pos h]
    exact hs
  rw [if_neg h]
  clear h
  by_cases h : o.c = 'n'
  · rw [if_pos h]
    exact hs
  rw [if_neg h]
  clear h
  by_cases h : o.c = 'g'
  · rw [if_pos h]
    exact hs
  rw [if_neg h]
  clear h
  by_cases h : o.c = 'G'
  · rw [if_pos h]
    exact hs
  rw [if_neg h]
  clear h
  by_cases h : o.c = 'f'
  · rw [if_pos h]
    exact hs
  rw [if_neg h]
  clear h
  by_cases h : o.c = 'c'
  · rw [if_pos h]
    exact hs
  rw [if_neg h]
  clear h
  by_cases h : o.c = 'h'
  · rw [if_pos h]
    exact hs
  rw [if_neg h]
  clear h
  exact hs

theorem option_loop_strategy (gb : Nat → serial_baud_t) :
    ∀ (opts : List getopt_t) (s : State), (∀ o ∈ opts, o.c ≠ '0' ∧ o.c ≠ '2') →
      s.vex_user_program = 1 → (option_loop gb opts s).2.vex_user_program = 1 := by
  intro opts
  induction opts with
  | nil => intro s _ hs; exact hs
  | cons o rest ih =>
    intro s hopts hs
    simp only [option_loop]
    have h := option_case_strategy gb o s (hopts o (List.mem_cons_self _ _)).1
      (hopts o (List.mem_cons_self _ _)).2 hs
    split
    · rename_i v s1 heq
      rw [heq] at h
      exact h
    · rename_i s1 heq
      rw [heq] at h
      exact ih s1 (fun o' ho' => hopts o' (List.mem_cons_of_mem _ ho')) h

theorem device_loop_strategy :
    ∀ (args : List String) (s : State),
      (device_loop args s).2.vex_user_program = s.vex_user_program := by
  intro args
  induction args with
  | nil => intro s; rfl
  | cons a rest ih =>
    intro s
    simp only [device_loop]
    split
    · rfl
    · exact ih _

theorem parse_options_strategy (gb : Nat → serial_baud_t) (opts : List getopt_t)
    (args : List String) (s : State) (hopts : ∀ o ∈ opts, o.c ≠ '0' ∧ o.c ≠ '2')
    (hs : s.vex_user_program = 1) :
    (parse_options gb opts args s).2.vex_user_program = 1 := by
  unfold parse_options
  have h1 := option_loop_strategy gb opts s hopts hs
  split
  · rename_i v s1 heq
    rw [heq] at h1
    exact h1
  · rename_i s1 heq
    rw [heq] at h1
    have h2 := device_loop_strategy args s1
    split
    · rename_i v s2 heq2
      rw [heq2] at h2
      exact h2.trans h1
    · rename_i s2 heq2
      rw [heq2] at h2
      have h3 : s2.vex_user_program = 1 := h2.trans h1
      split
      · exact h3
      · split
        · exact h3
        · exact h3

theorem compare_loop_never_reports (retry : Int) (buffer : List Nat) (compare : Nat → Nat)
    (hretry : retry ≠ 0) :
    ∀ (n r : Nat), compare_loop retry buffer compare n r 0 = Except.ok 0 := by
  intro n
  induction n with
  | zero => intro r; rfl
  | succ n ih =>
    intro r
    simp only [compare_loop]
    rw [if_neg (fun h => hretry h.2.symm)]
    exact ih (r + 1)

theorem compare_loop_first_mismatch (buffer : List Nat) (compare : Nat → Nat) :
    ∀ (n r0 r : Nat), r0 ≤ r → r < r0 + n →
      (∀ i, r0 ≤ i → i < r → buffer.getD i 0 = compare i) →
      buffer.getD r 0 ≠ compare r →
      compare_loop 0 buffer compare n r0 0 = Except.error r := by
  intro n
  induction n with
  | zero => intro r0 r h1 h2; omega
  | succ n ih =>
    intro r0 r h1 h2 heq hne
    simp only [compare_loop]
    by_cases hr : r0 = r
    · subst hr
      rw [if_pos ⟨hne, trivial⟩]
    · have h0 : buffer.getD r0 0 = compare r0 := heq r0 (Nat.le_refl _) (by omega)
      rw [if_neg (fun h => h.1 h0)]
      exact ih (r0 + 1) r (by omega) (by omega) (fun i hi1 hi2 => heq i (by omega) hi2) hne

/-- The events that one pass of the do-while loop of `write_flash` adds hold
exactly one write command and no chunk read; with a retry budget other than
0 they hold no verify report. -/
theorem write_chunk_once (env : Env) (verify : Bool) (retry : Int) (addr : Nat)
    (buffer : List Nat) (len fuel : Nat) (t : Trace) :
    ∃ L, (write_chunk env verify retry addr buffer len (fuel + 1) 0 t).2 = t ++ L ∧
      L.countP is_write_command = 1 ∧
      L.countP is_chunk_read = 0 ∧
      (retry ≠ 0 → ∀ e ∈ L, is_verify_report e = false) := by
  simp only [write_chunk]
  split
  · exact ⟨[Event.stm32_write_memory addr buffer, Event.print (Msg.write_failed addr)],
      by simp, by simp [is_write_command], by simp [is_chunk_read],
      fun _ => by simp [is_verify_report]⟩
  · split
    · split
      · rename_i hread
        exact ⟨[Event.stm32_write_memory addr buffer,
          Event.stm32_read_memory addr len (read_reply (env.stm32_read_memory
            (t ++ [Event.stm32_write_memory addr buffer]) addr len) len),
          Event.print (Msg.read_failed addr)],
          by simp, by simp [is_write_command], by simp [is_chunk_read],
          fun _ => by simp [is_verify_report]⟩
      · rename_i cmp hread
        split
        · rename_i r hcmp
          refine ⟨[Event.stm32_write_memory addr buffer,
            Event.stm32_read_memory addr len (read_reply (env.stm32_read_memory
              (t ++ [Event.stm32_write_memory addr buffer]) addr len) len),
            Event.print (Msg.verify_failed (add32 addr r) (buffer.getD r 0) (cmp r))],
            by simp, by simp [is_write_command], by simp [is_chunk_read], ?_⟩
          intro hretry
          rw [compare_loop_never_reports retry buffer cmp hretry] at hcmp
          cases hcmp
        · rename_i f hcmp
          have hf := compare_loop_ok_zero retry buffer cmp len 0 f hcmp
          subst hf
          simp only [gt_iff_lt, lt_self_iff_false, if_false]
          exact ⟨[Event.stm32_write_memory addr buffer,
            Event.stm32_read_memory addr len (read_reply (env.stm32_read_memory
              (t ++ [Event.stm32_write_memory addr buffer]) addr len) len)],
            by simp, by simp [is_write_command], by simp [is_chunk_read],
            fun _ => by simp [is_verify_report]⟩
    · simp only [gt_iff_lt, lt_self_iff_false, if_false]
      exact ⟨[Event.stm32_write_memory addr buffer], by simp, by simp [is_write_command],
        by simp [is_chunk_read], fun _ => by simp [is_verify_report]⟩

theorem write_loop_once (env : Env) (k : parser_kind) (dev : stm32_dev_t) (verify : Bool)
    (retry : Int) (quietmode : Bool) (size : Nat) :
    ∀ (fuel addr offset : Nat) (t : Trace),
      ∃ L, (write_loop env k dev verify retry quietmode size fuel addr offset t).2 = t ++ L ∧
        L.countP is_write_command = L.countP is_chunk_read ∧
        (retry ≠ 0 → ∀ e ∈ L, is_verify_report e = false) := by
  intro fuel
  induction fuel with
  | zero => intro addr offset t; exact ⟨[], by simp [write_loop], by simp, by simp⟩
  | succ fuel ih =>
    intro addr offset t
    simp only [write_loop]
    split
    · split
      · rename_i hread
        exact ⟨[Event.parser_read k (chunk_len dev size addr offset) none],
          by simp [hread], by simp [is_write_command, is_chunk_read],
          fun _ => by simp [is_verify_report]⟩
      · rename_i buffer hread
        obtain ⟨L1, hL1, hw1, hc1, hv1⟩ := write_chunk_once env verify retry addr buffer
          buffer.length fuel
          (t ++ [Event.parser_read k (chunk_len dev size addr offset)
            (env.parser_read t k (chunk_len dev size addr offset))])
        split
        · rename_i o t2 heq
          have h2 := congrArg Prod.snd heq
          simp only at h2
          rw [← h2, hL1]
          refine ⟨[Event.parser_read k (chunk_len dev size addr offset) (some buffer)] ++ L1,
            by simp [hread], ?_, ?_⟩
          · simp [List.countP_append, hw1, hc1, is_write_command, is_chunk_read]
          · intro hretry e he
            simp only [List.mem_append, List.mem_singleton] at he
            rcases he with rfl | he
            · rfl
            · exact hv1 hretry e he
        · rename_i t2 heq
          have h2 := congrArg Prod.snd heq
          simp only at h2
          obtain ⟨L2, hL2, hw2, hv2⟩ := ih (add32 addr buffer.length) (offset + buffer.length)
            (if quietmode = true then t2
              else t2 ++ [Event.show_progress (offset + buffer.length) size])
          rw [hL2, ← h2, hL1]
          refine ⟨[Event.parser_read k (chunk_len dev size addr offset) (some buffer)] ++ L1 ++
            (if quietmode = true then []
              else [Event.show_progress (offset + buffer.length) size]) ++ L2, ?_, ?_, ?_⟩
          · cases quietmode <;> simp [hread]
          · cases quietmode <;>
              simp [List.countP_append, hw1, hc1, hw2, is_write_command, is_chunk_read] <;>
              omega
          · intro hretry e he
            simp only [List.mem_append, List.mem_singleton] at he
            rcases he with ((rfl | he) | he) | he
            · rfl
            · exact hv1 hretry e he
            · cases quietmode
              · simp only [Bool.false_eq_true, if_false, List.mem_singleton] at he
                rw [he]; rfl
              · simp at he
            · exact hv2 hretry e he
    · split
      · exact ⟨[Event.transfer_timer 1 size, Event.print Msg.verify_ok], by simp,
          by simp [is_write_command, is_chunk_read], fun _ => by simp [is_verify_report]⟩
      · exact ⟨[Event.transfer_timer 1 size], by simp,
          by simp [is_write_command, is_chunk_read], fun _ => by simp [is_verify_report]⟩

theorem written_once_append (L2 : Trace) :
    ∀ (L1 : Trace) (p : Option (List Nat)), written_once p L1 = true →
      written_once p (L1 ++ L2) = written_once none L2 := by
  intro L1
  induction L1 with
  | nil =>
    intro p h
    cases p with
    | none => rfl
    | some d => simp [written_once] at h
  | cons e L1 ih =>
    intro p h
    cases e with
    | parser_read k len reply =>
      cases reply with
      | none =>
        simp only [written_once, List.cons_append, List.append_eq] at h ⊢
        exact ih p h
      | some data =>
        simp only [written_once, List.cons_append, List.append_eq, Bool.and_eq_true] at h ⊢
        rw [ih (some data) h.2, h.1]
        simp
    | stm32_write_memory addr data =>
      simp only [written_once, List.cons_append, List.append_eq, Bool.and_eq_true] at h ⊢
      rw [ih none h.2, h.1]
      simp
    | _ =>
      simp only [written_once, List.cons_append, List.append_eq] at h ⊢
      exact ih p h

theorem written_once_chunks :
    ∀ (L : Trace) (p : Option (List Nat)), written_once p L = true →
      chunks_written L = p.toList ++ chunks_read L := by
  intro L
  induction L with
  | nil =>
    intro p h
    cases p with
    | none => rfl
    | some d => simp [written_once] at h
  | cons e L ih =>
    intro p h
    cases e with
    | parser_read k len reply =>
      cases reply with
      | none =>
        simp only [written_once] at h
        simpa [chunks_written, chunks_read] using ih p h
      | some data =>
        simp only [written_once, Bool.and_eq_true] at h
        have hp : p = none := by
          cases p with
          | none => rfl
          | some d => simp at h
        subst hp
        simpa [chunks_written, chunks_read] using ih (some data) h.2
    | stm32_write_memory addr data =>
      simp only [written_once, Bool.and_eq_true, beq_iff_eq] at h
      rw [h.1]
      simpa [chunks_written, chunks_read] using ih none h.2
    | _ =>
      simp only [written_once] at h
      simpa [chunks_written, chunks_read] using ih p h

theorem bytes_getD (f : Nat → Nat) (n i : Nat) (h : i < n) : (bytes f n).getD i 0 = f i := by
  simp [bytes, List.getD_eq_getElem?_getD, h]

theorem compare_loop_error (retry : Int) (buffer : List Nat) (compare : Nat → Nat) :
    ∀ (n r0 r : Nat), compare_loop retry buffer compare n r0 0 = Except.error r →
      retry = 0 ∧ r0 ≤ r ∧ r < r0 + n ∧ buffer.getD r 0 ≠ compare r ∧
        ∀ i, r0 ≤ i → i < r → buffer.getD i 0 = compare i := by
  intro n
  induction n with
  | zero => intro r0 r h; simp [compare_loop] at h
  | succ n ih =>
    intro r0 r h
    simp only [compare_loop] at h
    split at h
    · rename_i hc
      injection h with h
      subst h
      exact ⟨hc.2.symm, Nat.le_refl _, by omega, hc.1, fun i h1 h2 => by omega⟩
    · rename_i hc
      obtain ⟨h1, h2, h3, h4, h5⟩ := ih (r0 + 1) r h
      refine ⟨h1, by omega, by omega, h4, fun i hi1 hi2 => ?_⟩
      by_cases hi : i = r0
      · subst hi
        by_contra hne
        exact hc ⟨hne, h1.symm⟩
      · exact h5 i (by omega) hi2

theorem ends_with_first_mismatch.prepend (P L : Trace)
    (hP : ∀ e ∈ P, is_verify_report e = false) (h : ends_with_first_mismatch L) :
    ends_with_first_mismatch (P ++ L) := by
  obtain ⟨L0, addr, buffer, compare, r, hL, h0, hlen, hr, heq, hne⟩ := h
  refine ⟨P ++ L0, addr, buffer, compare, r, by rw [hL, List.append_assoc], ?_, hlen, hr,
    heq, hne⟩
  intro e he
  rcases List.mem_append.1 he with he | he
  · exact hP e he
  · exact h0 e he

/-- The events that one pass of the do-while loop of `write_flash` adds write
the pending chunk exactly once; either they hold no verify report, or the
budget is 0 and they end the transfer with the report of the first mismatch. -/
theorem write_chunk_trace (env : Env) (verify : Bool) (retry : Int) (addr : Nat)
    (buffer : List Nat) (fuel : Nat) (t : Trace) :
    ∃ L, (write_chunk env verify retry addr buffer buffer.length (fuel + 1) 0 t).2 = t ++ L ∧
      written_once (some buffer) L = true ∧
      ((∀ e ∈ L, is_verify_report e = false) ∨
        (retry = 0 ∧ verify = true ∧
          (write_chunk env verify retry addr buffer buffer.length (fuel + 1) 0 t).1 =
            some (Outcome.returned (-1)) ∧
          ends_with_first_mismatch L)) := by
  simp only [write_chunk]
  split
  · exact ⟨[Event.stm32_write_memory addr buffer, Event.print (Msg.write_failed addr)],
      by simp, by simp [written_once], Or.inl (by simp [is_verify_report])⟩
  · split
    · rename_i hverify
      split
      · rename_i hread
        exact ⟨[Event.stm32_write_memory addr buffer,
          Event.stm32_read_memory addr buffer.length none,
          Event.print (Msg.read_failed addr)],
          by simp [hread, read_reply], by simp [written_once],
          Or.inl (by simp [is_verify_report])⟩
      · rename_i cmp hread
        split
        · rename_i r hcmp
          obtain ⟨h1, _, h3, h4, h5⟩ := compare_loop_error retry buffer cmp buffer.length 0 r hcmp
          refine ⟨[Event.stm32_write_memory addr buffer,
            Event.stm32_read_memory addr buffer.length (some (bytes cmp buffer.length)),
            Event.print (Msg.verify_failed (add32 addr r) (buffer.getD r 0) (cmp r))],
            by simp [hread, read_reply], by simp [written_once],
            Or.inr ⟨h1, hverify, rfl, ?_⟩⟩
          have hr : r < buffer.length := by omega
          refine ⟨[], addr, buffer, bytes cmp buffer.length, r, ?_, by simp, bytes_length _ _,
            hr, ?_, ?_⟩
          · rw [bytes_getD cmp buffer.length r hr]; rfl
          · intro i hi
            rw [bytes_getD cmp buffer.length i (by omega)]
            exact h5 i (Nat.zero_le _) hi
          · rw [bytes_getD cmp buffer.length r hr]
            exact h4
        · rename_i f hcmp
          have hf := compare_loop_ok_zero retry buffer cmp buffer.length 0 f hcmp
          subst hf
          simp only [gt_iff_lt, lt_self_iff_false, if_false]
          exact ⟨[Event.stm32_write_memory addr buffer,
            Event.stm32_read_memory addr buffer.length (some (bytes cmp buffer.length))],
            by simp [hread, read_reply], by simp [written_once],
            Or.inl (by simp [is_verify_report])⟩
    · simp only [gt_iff_lt, lt_self_iff_false, if_false]
      exact ⟨[Event.stm32_write_memory addr buffer], by simp, by simp [written_once],
        Or.inl (by simp [is_verify_report])⟩

/-- The do-while loop of `write_flash` ends within its first pass. -/
theorem write_chunk_one_pass (env : Env) (verify : Bool) (retry : Int) (addr : Nat)
    (buffer : List Nat) (len fuel : Nat) (t : Trace) :
    write_chunk env verify retry addr buffer len (fuel + 1) 0 t =
        write_chunk env verify retry addr buffer len 1 0 t ∧
      (write_chunk env verify retry addr buffer len 1 0 t).1 ≠ some Outcome.out_of_fuel := by
  simp only [write_chunk]
  split
  · exact ⟨rfl, by simp⟩
  · split
    · split
      · exact ⟨rfl, by simp⟩
      · rename_i cmp hread
        split
        · exact ⟨rfl, by simp⟩
        · rename_i f hcmp
          have hf := compare_loop_ok_zero retry buffer cmp len 0 f hcmp
          subst hf
          simp
    · simp

/-- The events that the transfer loop of `write_flash` adds write every chunk
obtained from the parser exactly once; either they hold no verify report, or
the budget is 0 and they end with the report of the first mismatch and -1. -/
theorem write_loop_trace (env : Env) (k : parser_kind) (dev : stm32_dev_t) (verify : Bool)
    (retry : Int) (quietmode : Bool) (size : Nat) :
    ∀ (fuel addr offset : Nat) (t : Trace),
      ∃ L, (write_loop env k dev verify retry quietmode size fuel addr offset t).2 = t ++ L ∧
        written_once none L = true ∧
        ((∀ e ∈ L, is_verify_report e = false) ∨
          (retry = 0 ∧ verify = true ∧
            (write_loop env k dev verify retry quietmode size fuel addr offset t).1 =
              Outcome.returned (-1) ∧
            ends_with_first_mismatch L)) := by
  intro fuel
  induction fuel with
  | zero =>
    intro addr offset t
    exact ⟨[], by simp [write_loop], rfl, Or.inl (by simp)⟩
  | succ fuel ih =>
    intro addr offset t
    simp only [write_loop]
    split
    · split
      · rename_i hread
        exact ⟨[Event.parser_read k (chunk_len dev size addr offset) none],
          by simp [hread], by simp [written_once], Or.inl (by simp [is_verify_report])⟩
      · rename_i buffer hread
        obtain ⟨L1, hL1, hw1, hv1⟩ := write_chunk_trace env verify retry addr buffer fuel
          (t ++ [Event.parser_read k (chunk_len dev size addr offset)
            (env.parser_read t k (chunk_len dev size addr offset))])
        have hhead : ∀ e ∈ [Event.parser_read k (chunk_len dev size addr offset) (some buffer)],
            is_verify_report e = false := by simp [is_verify_report]
        split
        · rename_i o t2 heq
          have h1 := congrArg Prod.fst heq
          have h2 := congrArg Prod.snd heq
          simp only at h1 h2
          rw [← h2, hL1]
          refine ⟨[Event.parser_read k (chunk_len dev size addr offset) (some buffer)] ++ L1,
            by simp [hread], by simpa [written_once] using hw1, ?_⟩
          rcases hv1 with hv1 | ⟨hr, hv, ho, hm⟩
          · left
            intro e he
            rcases List.mem_append.1 he with he | he
            · exact hhead e he
            · exact hv1 e he
          · right
            rw [h1] at ho
            injection ho with ho
            exact ⟨hr, hv, ho, hm.prepend _ _ hhead⟩
        · rename_i t2 heq
          have h1 := congrArg Prod.fst heq
          have h2 := congrArg Prod.snd heq
          simp only at h1 h2
          have hv1 : ∀ e ∈ L1, is_verify_report e = false := by
            rcases hv1 with hv1 | ⟨_, _, ho, _⟩
            · exact hv1
            · rw [h1] at ho; cases ho
          obtain ⟨L2, hL2, hw2, hv2⟩ := ih (add32 addr buffer.length) (offset + buffer.length)
            (if quietmode = true then t2
              else t2 ++ [Event.show_progress (offset + buffer.length) size])
          have hpre : ∀ e ∈ [Event.parser_read k (chunk_len dev size addr offset)
              (some buffer)] ++ L1 ++ (if quietmode = true then []
                else [Event.show_progress (offset + buffer.length) size]),
              is_verify_report e = false := by
            intro e he
            simp only [List.mem_append, List.mem_singleton] at he
            rcases he with (rfl | he) | he
            · rfl
            · exact hv1 e he
            · cases quietmode
              · simp only [Bool.false_eq_true, if_false, List.mem_singleton] at he
                rw [he]; rfl
              · simp at he
          have hwpre : written_once none ([Event.parser_read k (chunk_len dev size addr offset)
              (some buffer)] ++ L1 ++ (if quietmode = true then []
                else [Event.show_progress (offset + buffer.length) size])) = true := by
            rw [List.append_assoc, List.singleton_append]
            simp only [written_once, Option.isNone_none, Bool.true_and]
            rw [written_once_append _ L1 (some buffer) hw1]
            cases quietmode <;> simp [written_once]
          rw [hL2, ← h2, hL1]
          refine ⟨[Event.parser_read k (chunk_len dev size addr offset) (some buffer)] ++ L1 ++
            (if quietmode = true then []
              else [Event.show_progress (offset + buffer.length) size]) ++ L2, ?_, ?_, ?_⟩
          · cases quietmode <;> simp [hread]
          · rw [written_once_append L2 _ none hwpre]
            exact hw2
          · rcases hv2 with hv2 | ⟨hr, hv, ho, hm⟩
            · left
              intro e he
              rcases List.mem_append.1 he with he | he
              · exact hpre e he
              · exact hv2 e he
            · right
              rw [← h2, hL1] at ho
              exact ⟨hr, hv, ho, hm.prepend _ _ hpre⟩
    · split
      · exact ⟨[Event.transfer_timer 1 size, Event.print Msg.verify_ok], by simp,
          by simp [written_once], Or.inl (by simp [is_verify_report])⟩
      · exact ⟨[Event.transfer_timer 1 size], by simp,
          by simp [written_once], Or.inl (by simp [is_verify_report])⟩

/-- The events that `write_flash` adds hold as many write commands as chunks
obtained from the parser. -/
theorem write_flash_count (env : Env) (fuel : Nat) (s : State) :
    ∃ L, (write_flash env fuel s).2.trace = s.trace ++ L ∧
      L.countP is_write_command = L.countP is_chunk_read := by
  unfold write_flash
  split
  · split
    · rename_i k stm hk hstm
      dsimp only
      split
      · exact ⟨[Event.print Msg.newline, Event.parser_size k,
          Event.print Msg.file_too_large], by simp,
          by simp [is_write_command, is_chunk_read]⟩
      · obtain ⟨L, hL, hc, _⟩ := write_loop_once env k stm.dev s.verify s.retry s.quietmode
          (env.parser_size (s.trace ++ [Event.print Msg.newline]) k % U32) fuel
          stm.dev.fl_start 0
          (s.trace ++ [Event.print Msg.newline] ++ [Event.parser_size k] ++
            [Event.stm32_erase_memory s.npages] ++
            [Event.show_progress 0
              (env.parser_size (s.trace ++ [Event.print Msg.newline]) k % U32),
              Event.transfer_timer 0 0])
        rw [hL]
        refine ⟨[Event.print Msg.newline, Event.parser_size k,
          Event.stm32_erase_memory s.npages,
          Event.show_progress 0
            (env.parser_size (s.trace ++ [Event.print Msg.newline]) k % U32),
          Event.transfer_timer 0 0] ++ L, by simp, ?_⟩
        simp [List.countP_append, hc, is_write_command, is_chunk_read]
    · exact ⟨[Event.print Msg.newline], by simp,
        by simp [is_write_command, is_chunk_read]⟩
  · exact ⟨[], by simp, by simp⟩

/-- The compare loop of `write_flash` leaves the failure counter at 0 when it
ends after at least one comparison, or when it was started at 0. -/
theorem compare_loop_reset (retry : Int) (buffer : List Nat) (compare : Nat → Nat)
    (n r : Nat) (f0 f : Int) (h0 : 0 < n ∨ f0 = 0)
    (h : compare_loop retry buffer compare n r f0 = Except.ok f) : f = 0 := by
  cases n with
  | zero =>
    rcases h0 with h0 | h0
    · omega
    · subst h0
      exact compare_loop_ok_zero retry buffer compare 0 r f h
  | succ n =>
    simp only [compare_loop] at h
    split at h
    · cases h
    · exact compare_loop_ok_zero retry buffer compare n (r + 1) f h

/-- The events that `write_flash` adds write every chunk obtained from the
parser exactly once; either they hold no verify report, or the budget is 0 and
they end with the report of the first mismatch and the result -1. -/
theorem write_flash_trace (env : Env) (fuel : Nat) (s : State) :
    ∃ L, (write_flash env fuel s).2.trace = s.trace ++ L ∧
      written_once none L = true ∧
      ((∀ e ∈ L, is_verify_report e = false) ∨
        (s.retry = 0 ∧ s.verify = true ∧
          (write_flash env fuel s).1 = Outcome.returned (-1) ∧
          ends_with_first_mismatch L)) := by
  unfold write_flash
  split
  · split
    · rename_i k stm hk hstm
      dsimp only
      split
      · exact ⟨[Event.print Msg.newline, Event.parser_size k,
          Event.print Msg.file_too_large], by simp, by simp [written_once],
          Or.inl (by simp [is_verify_report])⟩
      · obtain ⟨L, hL, hw, hv⟩ := write_loop_trace env k stm.dev s.verify s.retry s.quietmode
          (env.parser_size (s.trace ++ [Event.print Msg.newline]) k % U32) fuel
          stm.dev.fl_start 0
          (s.trace ++ [Event.print Msg.newline] ++ [Event.parser_size k] ++
            [Event.stm32_erase_memory s.npages] ++
            [Event.show_progress 0
              (env.parser_size (s.trace ++ [Event.print Msg.newline]) k % U32),
              Event.transfer_timer 0 0])
        have hpre : ∀ e ∈ [Event.print Msg.newline, Event.parser_size k,
            Event.stm32_erase_memory s.npages,
            Event.show_progress 0
              (env.parser_size (s.trace ++ [Event.print Msg.newline]) k % U32),
            Event.transfer_timer 0 0], is_verify_report e = false := by
          simp [is_verify_report]
        rw [hL]
        refine ⟨[Event.print Msg.newline, Event.parser_size k,
          Event.stm32_erase_memory s.npages,
          Event.show_progress 0
            (env.parser_size (s.trace ++ [Event.print Msg.newline]) k % U32),
          Event.transfer_timer 0 0] ++ L, by simp, ?_, ?_⟩
        · rw [written_once_append L _ none (by simp [written_once])]
          exact hw
        · rcases hv with hv | ⟨hr, hvf, ho, hm⟩
          · left
            intro e he
            rcases List.mem_append.1 he with he | he
            · exact hpre e he
            · exact hv e he
          · right
            exact ⟨hr, hvf, ho, hm.prepend _ _ hpre⟩
    · exact ⟨[Event.print Msg.newline], by simp, by simp [written_once],
        Or.inl (by simp [is_verify_report])⟩
  · exact ⟨[], by simp, rfl, Or.inl (by simp)⟩

/-! ## The claims on the vendor commands -/

/-- C11, evaluated at a failing input: in quiet mode a 14-byte reply of zero
bytes, which does not begin with `AA 55 21 0A`, makes `vex_sys_status_cmd`
return 1; the same reply makes it return 0 when quiet mode is off. -/
theorem C11_quiet_mode_skips_header_check :
    (vex_sys_status_cmd (env_reply 0 0) { state_handshake with quietmode := true }).1 = 1 ∧
      (vex_sys_status_cmd (env_reply 0 0) { state_handshake with quietmode := true }).2.trace =
        [Event.serial_flush, Event.serial_write [0xC9, 0x36, 0xB8, 0x47, 0x21],
          Event.serial_read 14 (some [0, 0, 0, 0, 0, 0, 0, 0, 0, 0, 0, 0, 0, 0])] ∧
      (vex_sys_status_cmd (env_reply 0 0) state_handshake).1 = 0 := by
  decide

/-- C12 as stated fails: the command strategy sends the five enter-bootloader
commands back to back, the only delay follows the last one, so consecutive
transmissions are not separated by a delay. -/
theorem C12_counterexample_no_delay_between :
    state_handshake.vex_user_program = 1 ∧
      (vex_enter_strategy env_ok state_handshake).trace =
        [Event.print Msg.bootloader_start,
          Event.serial_write [0xC9, 0x36, 0xB8, 0x47, 0x25],
          Event.serial_write [0xC9, 0x36, 0xB8, 0x47, 0x25],
          Event.serial_write [0xC9, 0x36, 0xB8, 0x47, 0x25],
          Event.serial_write [0xC9, 0x36, 0xB8, 0x47, 0x25],
          Event.serial_write [0xC9, 0x36, 0xB8, 0x47, 0x25],
          Event.usleep 250000] ∧
      writes_delayed false (vex_enter_strategy env_ok state_handshake).trace = false := by
  decide

/-- C12, amended: the command entry strategy is the one in force when no
strategy option (`-X`, `-0`, `-1`, `-2`) is given; on an open connection it
transmits the 5-byte sequence `C9 36 B8 47 25` exactly 5 times back to back,
followed by one delay of 250 ms after the last transmission. -/
theorem C12_enter_command_five_times (env : Env) (s : State) (hserial : s.serial = true)
    (hstrategy : s.vex_user_program = 1) :
    (∀ (gb : Nat → serial_baud_t) (opts : List getopt_t) (args : List String),
        (∀ o ∈ opts, o.c ≠ 'X' ∧ o.c ≠ '0' ∧ o.c ≠ '1' ∧ o.c ≠ '2') →
        (parse_options gb opts args State.initial).2.vex_user_program = 1) ∧
      (vex_enter_strategy env s).trace =
        s.trace ++ (if s.quietmode then [] else [Event.print Msg.bootloader_start]) ++
          [Event.serial_write [0xC9, 0x36, 0xB8, 0x47, 0x25],
            Event.serial_write [0xC9, 0x36, 0xB8, 0x47, 0x25],
            Event.serial_write [0xC9, 0x36, 0xB8, 0x47, 0x25],
            Event.serial_write [0xC9, 0x36, 0xB8, 0x47, 0x25],
            Event.serial_write [0xC9, 0x36, 0xB8, 0x47, 0x25],
            Event.usleep 250000] ∧
      serial_written (vex_enter_strategy env s).trace =
        serial_written s.trace ++ List.replicate 5 [0xC9, 0x36, 0xB8, 0x47, 0x25] := by
  refine ⟨?_, ?_, ?_⟩
  · intro gb opts args hopts
    exact parse_options_strategy gb opts args State.initial
      (fun o ho => ⟨(hopts o ho).2.1, (hopts o ho).2.2.2⟩) rfl
  · cases hq : s.quietmode <;>
      simp [vex_enter_strategy, vex_enter_user_program_cmd, State.log, hserial, hstrategy, hq]
  · cases hq : s.quietmode <;>
      simp [vex_enter_strategy, vex_enter_user_program_cmd, State.log, hserial, hstrategy, hq,
        serial_written, List.filterMap_append, List.replicate]

/-- C12 at a concrete input: the open connection reached after `-w file dev`. -/
theorem C12_enter_command_five_times_witness :
    serial_written (vex_enter_strategy env_ok state_handshake).trace =
      serial_written state_handshake.trace ++ List.replicate 5 [0xC9, 0x36, 0xB8, 0x47, 0x25] :=
  (C12_enter_command_five_times env_ok state_handshake rfl rfl).2.2

/-- C13: on an open connection whose line setup succeeds,
`vex_enter_user_program_rts` first sets the line to 9600 baud, 8 bits, no
parity, 1 stop bit, returns 1 and then, after a dummy byte `00`, performs in
this order: RTS asserted (5 ms); RTS deasserted and held 15 ms; RTS asserted
and held 10 ms; the marker byte `F0` transmitted (20 ms); RTS deasserted.  The
RTS line is set exactly four times, to 1, 0, 1, 0. -/
theorem C13_rts_pulse_sequence (env : Env) (s : State) (hserial : s.serial = true)
    (hsetup : env.serial_setup s.trace serial_baud_t.SERIAL_BAUD_9600 8
      serial_parity_t.SERIAL_PARITY_NONE 1 = true) :
    (vex_enter_user_program_rts env s).1 = 1 ∧
      (vex_enter_user_program_rts env s).2.trace =
        s.trace ++ [Event.serial_setup serial_baud_t.SERIAL_BAUD_9600 8
          serial_parity_t.SERIAL_PARITY_NONE 1] ++
          (if s.quietmode then [] else [Event.print Msg.bootloader_start_rts]) ++
          [Event.serial_write [0x00],
            Event.serial_set_rts 1, Event.usleep 5000,
            Event.serial_set_rts 0, Event.usleep 15000,
            Event.serial_set_rts 1, Event.usleep 10000,
            Event.serial_write [0xF0], Event.usleep 20000,
            Event.serial_set_rts 0, Event.usleep 250000] ∧
      rts_levels (vex_enter_user_program_rts env s).2.trace =
        rts_levels s.trace ++ [1, 0, 1, 0] := by
  cases hq : s.quietmode <;>
    simp [vex_enter_user_program_rts, State.log, hserial, hsetup, hq, rts_levels,
      List.filterMap_append]

/-- C13 at a concrete input: the open connection reached after `-w file dev`. -/
theorem C13_rts_pulse_sequence_witness :
    rts_levels (vex_enter_user_program_rts env_ok state_handshake).2.trace =
      rts_levels state_handshake.trace ++ [1, 0, 1, 0] :=
  (C13_rts_pulse_sequence env_ok state_handshake rfl rfl).2.2

/-! ## The claims on `main` and the command line -/

/-- C14, evaluated at two failing inputs: without a device argument
`parse_options` fails with 1 and `main` returns 0; the run `-w file dev` on a
cooperative device writes the image, cleans up and returns 1. -/
theorem C14_exit_status_inverted :
    (parse_options baud_table [] [] State.initial).1 = 1 ∧
      (main env_ok err_code baud_table 8 [] []).1 = Outcome.returned 0 ∧
      (main env_ok err_code baud_table 8 [{ c := 'w', optarg := "file", value := 0 }]
        ["dev"]).1 = Outcome.returned 1 ∧
      write_commands (main env_ok err_code baud_table 8
        [{ c := 'w', optarg := "file", value := 0 }] ["dev"]).2.trace = [(0x08000000, 2)] := by
  decide

/-- C15, evaluated at a failing input: the page count 4294967296 lies outside
`[0,255]`, but stored into the `int` `npages` it is 0, so `parse_options`
returns 0 and `main` goes on to open the serial device. -/
theorem C15_page_count_truncated :
    (parse_options baud_table [{ c := 'e', optarg := "4294967296", value := 4294967296 }]
        ["dev"] State.initial).1 = 0 ∧
      (parse_options baud_table [{ c := 'e', optarg := "4294967296", value := 4294967296 }]
        ["dev"] State.initial).2.npages = 0 ∧
      Event.serial_open "dev" ∈ (main env_ok err_code baud_table 8
        [{ c := 'e', optarg := "4294967296", value := 4294967296 }] ["dev"]).2.trace := by
  decide

/-- C16, evaluated at a failing input: `-u -r file dev` is accepted with both
unprotect and read requested, although `-r file -u dev` is rejected. -/
theorem C16_unprotect_before_read_accepted :
    (parse_options baud_table [{ c := 'u', optarg := "", value := 0 },
        { c := 'r', optarg := "file", value := 0 }] ["dev"] State.initial).1 = 0 ∧
      (parse_options baud_table [{ c := 'u', optarg := "", value := 0 },
        { c := 'r', optarg := "file", value := 0 }] ["dev"] State.initial).2.wu = true ∧
      (parse_options baud_table [{ c := 'u', optarg := "", value := 0 },
        { c := 'r', optarg := "file", value := 0 }] ["dev"] State.initial).2.rd = true ∧
      (parse_options baud_table [{ c := 'r', optarg := "file", value := 0 },
        { c := 'u', optarg := "", value := 0 }] ["dev"] State.initial).1 = 1 := by
  decide

/-- C17, evaluated at a failing input: in the run `-u -G dev` the command
`stm32_go` is issued after `stm32_wunprot_memory` on the same session. -/
theorem C17_go_after_unprotect :
    (main env_ok err_code baud_table 8 [{ c := 'u', optarg := "", value := 0 },
        { c := 'G', optarg := "", value := 0 }] ["dev"]).2.trace =
      [Event.print Msg.banner, Event.serial_open "dev",
        Event.serial_setup serial_baud_t.SERIAL_BAUD_115200 8
          serial_parity_t.SERIAL_PARITY_EVEN 1,
        Event.usleep 100000,
        Event.serial_setup serial_baud_t.SERIAL_BAUD_115200 8
          serial_parity_t.SERIAL_PARITY_EVEN 1,
        Event.usleep 100000, Event.serial_write [0x7F], Event.serial_read 1 (some [0x79]),
        Event.serial_setup serial_baud_t.SERIAL_BAUD_115200 8
          serial_parity_t.SERIAL_PARITY_EVEN 1,
        Event.usleep 100000, Event.serial_set_rts 0, Event.usleep 100000,
        Event.stm32_init 0, Event.print Msg.device_info,
        Event.print Msg.write_unprotecting, Event.stm32_wunprot_memory, Event.print Msg.done,
        Event.print (Msg.starting_execution 0x08000000), Event.stm32_go 0x08000000,
        Event.print Msg.done,
        Event.usleep 20000, Event.stm32_close, Event.serial_close,
        Event.print Msg.newline] := by
  decide

/-- C18, evaluated at a failing input: in the run `-w file dev` the hex parser
is initialised but cannot open the file; `main` returns the error code with
the parser state still held, `parser->close` was never called. -/
theorem C18_parser_state_not_released :
    (main env_open_fails err_code baud_table 8 [{ c := 'w', optarg := "file", value := 0 }]
        ["dev"]).1 = Outcome.returned 1 ∧
      (main env_open_fails err_code baud_table 8 [{ c := 'w', optarg := "file", value := 0 }]
        ["dev"]).2.p_st = true ∧
      (main env_open_fails err_code baud_table 8 [{ c := 'w', optarg := "file", value := 0 }]
        ["dev"]).2.trace =
        [Event.print Msg.banner, Event.parser_init parser_kind.PARSER_HEX,
          Event.parser_open parser_kind.PARSER_HEX "file" false,
          Event.print (Msg.parser_error parser_err_t.PARSER_ERR_SYSTEM),
          Event.print Msg.perror] := by
  decide

/-! ## The claims on the retry counter and on `cleanup` -/

/-- C19: in `write_flash` the failure counter is 0 whenever the compare loop
ends, after at least one comparison or started at 0 as the code starts it, so
the do-while loop ends within its first pass: for every device
behaviour and every retry budget each chunk obtained from the parser is sent
in exactly one write command, which carries the bytes of that chunk, and with
a retry budget other than 0 (in particular every `N >= 1`) no verify mismatch
is reported.  A mismatch is reported only with budget 0 and verification
enabled: the report ends the transfer with -1 and names the first differing
byte of the chunk just written, at address `addr + index`; with budget 0 a
chunk whose read-back differs is reported in this way. -/
theorem C19_failure_counter_reset (env : Env) (fuel : Nat) (s : State) :
    (∀ (retry : Int) (buffer : List Nat) (compare : Nat → Nat) (n r : Nat) (f0 f : Int),
        0 < n ∨ f0 = 0 → compare_loop retry buffer compare n r f0 = Except.ok f → f = 0) ∧
      (∀ (verify : Bool) (retry : Int) (addr : Nat) (buffer : List Nat) (len : Nat) (t : Trace),
        write_chunk env verify retry addr buffer len (fuel + 1) 0 t =
            write_chunk env verify retry addr buffer len 1 0 t ∧
          (write_chunk env verify retry addr buffer len 1 0 t).1 ≠ some Outcome.out_of_fuel) ∧
      (∃ L, (write_flash env fuel s).2.trace = s.trace ++ L ∧
        written_once none L = true ∧
        chunks_written L = chunks_read L ∧
        L.countP is_write_command = L.countP is_chunk_read ∧
        (s.retry ≠ 0 → ∀ e ∈ L, is_verify_report e = false) ∧
        ((∀ e ∈ L, is_verify_report e = false) ∨
          (s.retry = 0 ∧ s.verify = true ∧
            (write_flash env fuel s).1 = Outcome.returned (-1) ∧
            ends_with_first_mismatch L))) ∧
      (∀ (addr : Nat) (buffer : List Nat) (compare : Nat → Nat) (r : Nat) (t : Trace),
        env.stm32_write_memory t addr buffer = true →
        env.stm32_read_memory (t ++ [Event.stm32_write_memory addr buffer]) addr
          buffer.length = some compare →
        r < buffer.length → (∀ i, i < r → buffer.getD i 0 = compare i) →
        buffer.getD r 0 ≠ compare r →
        write_chunk env true 0 addr buffer buffer.length (fuel + 1) 0 t =
          (some (Outcome.returned (-1)),
            t ++ [Event.stm32_write_memory addr buffer,
              Event.stm32_read_memory addr buffer.length (some (bytes compare buffer.length)),
              Event.print (Msg.verify_failed (add32 addr r) (buffer.getD r 0) (compare r))])) := by
  refine ⟨fun retry buffer compare n r f0 f h0 h =>
      compare_loop_reset retry buffer compare n r f0 f h0 h,
    fun verify retry addr buffer len t =>
      write_chunk_one_pass env verify retry addr buffer len fuel t, ?_, ?_⟩
  · obtain ⟨L, hL, hw, hv⟩ := write_flash_trace env fuel s
    obtain ⟨L1, hL1, hc⟩ := write_flash_count env fuel s
    have hLL : L1 = L := List.append_cancel_left (hL1.symm.trans hL)
    subst hLL
    refine ⟨L1, hL, hw, by simpa using written_once_chunks L1 none hw, hc, ?_, hv⟩
    intro hretry
    rcases hv with hv | ⟨hr, _⟩
    · exact hv
    · exact absurd hr hretry
  · intro addr buffer compare r t hw hr hlt heq hne
    have hcmp := compare_loop_first_mismatch buffer compare buffer.length 0 r (Nat.zero_le _)
      (by omega) (fun i _ hi => heq i hi) hne
    simp [write_chunk, hw, hr, hcmp, read_reply]

/-- C19 at concrete inputs: the image `12 34` delivered as two chunks of one
byte, each read back as `00`.  With the default budget 10 both chunks are
written once and nothing is reported; with budget 0 the first chunk is written
once and reported at `0x08000000`, and the transfer ends with -1. -/
theorem C19_failure_counter_reset_witness :
    (written_once none
          (write_flash (env_bytewise (fun _ => 0)) 3 state_write_verify).2.trace = true ∧
        chunks_written (write_flash (env_bytewise (fun _ => 0)) 3 state_write_verify).2.trace =
          [[0x12], [0x34]] ∧
        ∀ e ∈ (write_flash (env_bytewise (fun _ => 0)) 3 state_write_verify).2.trace,
          is_verify_report e = false) ∧
      ((write_flash (env_bytewise (fun _ => 0)) 3
          { state_write_verify with retry := 0 }).1 = Outcome.returned (-1) ∧
        chunks_written (write_flash (env_bytewise (fun _ => 0)) 3
          { state_write_verify with retry := 0 }).2.trace = [[0x12]] ∧
        ends_with_first_mismatch (write_flash (env_bytewise (fun _ => 0)) 3
          { state_write_verify with retry := 0 }).2.trace) ∧
      write_chunk (env_bytewise (fun _ => 0)) true 0 0x08000000 [0x12] 1 4 0 [] =
        (some (Outcome.returned (-1)),
          [Event.stm32_write_memory 0x08000000 [0x12],
            Event.stm32_read_memory 0x08000000 1 (some [0]),
            Event.print (Msg.verify_failed 0x08000000 0x12 0)]) := by
  have h10 := C19_failure_counter_reset (env_bytewise (fun _ => 0)) 3 state_write_verify
  have h0 := C19_failure_counter_reset (env_bytewise (fun _ => 0)) 3
    { state_write_verify with retry := 0 }
  refine ⟨?_, ?_, ?_⟩
  · obtain ⟨L, hL, hw, hc, _, hv, _⟩ := h10.2.2.1
    have hL1 : (write_flash (env_bytewise (fun _ => 0)) 3 state_write_verify).2.trace = L := hL
    rw [hL1]
    refine ⟨hw, ?_, hv (by decide)⟩
    rw [hc, ← hL1]
    decide
  · obtain ⟨L, hL, hw, hc, _, _, hv⟩ := h0.2.2.1
    have hL1 : (write_flash (env_bytewise (fun _ => 0)) 3
        { state_write_verify with retry := 0 }).2.trace = L := hL
    have hmem : Event.print (Msg.verify_failed 0x08000000 0x12 0) ∈ L := by
      rw [← hL1]; decide
    rcases hv with hv | ⟨_, _, ho, hm⟩
    · exact absurd (hv _ hmem) (by decide)
    · rw [hL1]
      refine ⟨ho, ?_, hm⟩
      rw [hc, ← hL1]
      decide
  · exact h10.2.2.2 0x08000000 [0x12] (fun _ => 0) 0 [] rfl rfl (by decide)
      (fun i hi => absurd hi (Nat.not_lt_zero i)) (by decide)

/-- C20, evaluated at a failing input: in the run `-w file dev` the line setup
inside `vex_detect_mode` fails.  `vex_detect_mode` runs `cleanup` and returns
-1, `main` takes that for "not in bootloader" and calls `vex_initialize`,
which issues `serial_setup` on the closed connection and runs `cleanup` again,
and `main` runs it a third time. -/
theorem C20_use_after_cleanup :
    (main env_setup_once err_code baud_table 8 [{ c := 'w', optarg := "file", value := 0 }]
        ["dev"]).1 = Outcome.returned (-1) ∧
      (main env_setup_once err_code baud_table 8 [{ c := 'w', optarg := "file", value := 0 }]
        ["dev"]).2.trace =
        [Event.print Msg.banner, Event.parser_init parser_kind.PARSER_HEX,
          Event.parser_open parser_kind.PARSER_HEX "file" false,
          Event.print Msg.parser_selected, Event.serial_open "dev",
          Event.serial_setup serial_baud_t.SERIAL_BAUD_115200 8
            serial_parity_t.SERIAL_PARITY_EVEN 1,
          Event.usleep 100000,
          Event.serial_setup serial_baud_t.SERIAL_BAUD_115200 8
            serial_parity_t.SERIAL_PARITY_EVEN 1,
          Event.print Msg.perror,
          Event.usleep 20000, Event.parser_close parser_kind.PARSER_HEX, Event.serial_close,
          Event.usleep 100000,
          Event.serial_setup serial_baud_t.SERIAL_BAUD_115200 8
            serial_parity_t.SERIAL_PARITY_NONE 1,
          Event.print Msg.perror,
          Event.usleep 20000, Event.parser_close parser_kind.PARSER_HEX, Event.serial_close,
          Event.usleep 20000, Event.parser_close parser_kind.PARSER_HEX,
          Event.serial_close] := by
  decide

end Stm32flash
